import Mathlib

/-!
Shallow embedding of the tank-battle simulation core (src/game.py).

Modelling conventions:
* Python floats are idealised as rationals (ℚ); `pygame.Rect` stores integers.
* `int(q)` (Python truncation toward zero) is `pyInt`.
* Python float `%` (sign of divisor, here used with positive divisor 360) is `qmod`.
* `math.cos`/`math.sin`/`math.atan2`/`Vector2.length`'s square root are
  transcendental; they are passed in as an explicit model `Trig`, so every
  definition stays computable and theorems quantify over the model.
* `random.Random(seed)` instances are modelled as abstract draw streams:
  `floats i` is the i-th `random()` result of that instance and `ints i` is the
  raw value backing the i-th `randint` call (`randint a b = a + ints i % (b-a+1)`,
  matching the [a, b] contract of `randint`).  A family `ℕ → PyRNG` maps each
  seed to its stream, so seed-dependence is expressed exactly.
* Python object identity (used by `target is shell.owner`) is modelled by a
  numeric handle `tid` on tanks / `owner` on shells.
* Rendering-only fields (colors) are dropped; `radius` is kept on shells.
-/

namespace TankGame

attribute [local semireducible] Rat.add Rat.sub Rat.mul Rat.inv Rat.ofScientific

/-- SCREEN_WIDTH constant. -/
def SCREEN_WIDTH : ℤ := 960

/-- SCREEN_HEIGHT constant. -/
def SCREEN_HEIGHT : ℤ := 720

/-- TILE_SIZE constant. -/
def TILE_SIZE : ℤ := 48

/-- GRID_WIDTH = SCREEN_WIDTH // TILE_SIZE = 20. -/
def GRID_WIDTH : ℕ := 20

/-- GRID_HEIGHT = SCREEN_HEIGHT // TILE_SIZE = 15. -/
def GRID_HEIGHT : ℕ := 15

/-- PLAYER_SPEED constant. -/
def PLAYER_SPEED : ℚ := 180

/-- PLAYER_ROTATION_SPEED constant. -/
def PLAYER_ROTATION_SPEED : ℚ := 180

/-- ENEMY_SPEED constant. -/
def ENEMY_SPEED : ℚ := 120

/-- ENEMY_ROTATION_SPEED constant. -/
def ENEMY_ROTATION_SPEED : ℚ := 120

/-- SHELL_SPEED constant. -/
def SHELL_SPEED : ℚ := 400

/-- SHELL_COOLDOWN constant (0.6). -/
def SHELL_COOLDOWN : ℚ := 3 / 5

/-- LEVEL_BASE_ENEMIES constant. -/
def LEVEL_BASE_ENEMIES : ℚ := 2

/-- LEVEL_ENEMY_SCALE constant (1.25). -/
def LEVEL_ENEMY_SCALE : ℚ := 5 / 4

/-- Python `int(q)`: truncation toward zero. -/
def pyInt (q : ℚ) : ℤ := if 0 ≤ q then ⌊q⌋ else ⌈q⌉

/-- Python float `%` with the sign convention of the divisor (used with 360 > 0). -/
def qmod (a b : ℚ) : ℚ := a - b * ⌊a / b⌋

/-- `clamp` from game.py: max(min_value, min(value, max_value)). -/
def clamp (value minValue maxValue : ℚ) : ℚ := max minValue (min value maxValue)

/-- pygame.Vector2 with exact rational coordinates. -/
structure Vec2 where
  x : ℚ
  y : ℚ
deriving DecidableEq, Repr

instance : Add Vec2 := ⟨fun a b => ⟨a.x + b.x, a.y + b.y⟩⟩

instance : Sub Vec2 := ⟨fun a b => ⟨a.x - b.x, a.y - b.y⟩⟩

/-- Scalar multiple of a vector (pygame `Vector2 * scalar`). -/
def Vec2.smul (v : Vec2) (c : ℚ) : Vec2 := ⟨v.x * c, v.y * c⟩

/-- `Vector2.length_squared()`. -/
def Vec2.lenSq (v : Vec2) : ℚ := v.x * v.x + v.y * v.y

/-- pygame.Rect: integer position and size. -/
structure Rect where
  x : ℤ
  y : ℤ
  w : ℤ
  h : ℤ
deriving DecidableEq, Repr

/-- Rect.right. -/
def Rect.right (r : Rect) : ℤ := r.x + r.w

/-- Rect.bottom. -/
def Rect.bottom (r : Rect) : ℤ := r.y + r.h

/-- `Rect.collidepoint(px, py)`: the float point is converted to ints
(truncation); right/bottom edges are exclusive, left/top inclusive. -/
def collidepoint (r : Rect) (px py : ℚ) : Bool :=
  decide (r.x ≤ pyInt px) && decide (pyInt px < r.right) &&
  decide (r.y ≤ pyInt py) && decide (pyInt py < r.bottom)

/-- `Rect.colliderect`: strict overlap on both axes (touching edges do not collide). -/
def collideRect (a b : Rect) : Bool :=
  decide (a.x < b.right) && decide (b.x < a.right) &&
  decide (a.y < b.bottom) && decide (b.y < a.bottom)

/-- Model of the transcendental functions the code uses:
`cosd`/`sind` are cosine/sine of an angle in degrees, `atan2` is
`math.degrees(math.atan2 y x)`, `sqrt` backs `Vector2.length`. -/
structure Trig where
  cosd : ℚ → ℚ
  sind : ℚ → ℚ
  atan2 : ℚ → ℚ → ℚ
  sqrt : ℚ → ℚ

/-- `vec_from_angle(angle_degrees)`. -/
def vecFromAngle (T : Trig) (a : ℚ) : Vec2 := ⟨T.cosd a, T.sind a⟩

/-- The currently pressed control intents (`keys[K_w] or keys[K_UP]` etc.
collapsed to one boolean per intent). -/
structure Keys where
  forward : Bool
  backward : Bool
  left : Bool
  right : Bool
deriving DecidableEq, Repr

/-- A Shell projectile.  `owner` is the identity handle of the firing tank. -/
structure Shell where
  position : Vec2
  velocity : Vec2
  owner : ℕ
  radius : ℚ
  alive : Bool
deriving DecidableEq, Repr

/-- `Shell.update(dt, walls)`: dead shells are a no-op; otherwise Euler-step the
position, die on any wall containing the (point) position, die when outside
the screen bounds (both checks only ever clear `alive`). -/
def Shell.update (dt : ℚ) (walls : List Rect) (s : Shell) : Shell :=
  if !s.alive then s else
  let p := s.position + s.velocity.smul dt
  let hitWall := walls.any (fun wll => collidepoint wll p.x p.y)
  let inBounds : Bool :=
    decide ((0 : ℚ) ≤ p.x) && decide (p.x ≤ (SCREEN_WIDTH : ℚ)) &&
    decide ((0 : ℚ) ≤ p.y) && decide (p.y ≤ (SCREEN_HEIGHT : ℚ))
  { s with position := p, alive := !hitWall && inBounds }

/-- A Tank.  `tid` is the Python object-identity handle; rendering-only fields
are omitted. -/
structure Tank where
  tid : ℕ
  position : Vec2
  angle : ℚ
  speed : ℚ
  rotation_speed : ℚ
  is_player : Bool
  reload_time : ℚ
  shell_cooldown : ℚ
  shells : List Shell
  sizeW : ℤ
  sizeH : ℤ
  alive : Bool
deriving DecidableEq, Repr

/-- `Tank.rect`: None when a size component is zero or the tank is dead,
otherwise the int-truncated rect centered on the position. -/
def rectOf (t : Tank) : Option Rect :=
  if t.sizeW = 0 ∨ t.sizeH = 0 ∨ t.alive = false then none
  else some ⟨pyInt (t.position.x - (t.sizeW : ℚ) / 2),
             pyInt (t.position.y - (t.sizeH : ℚ) / 2), t.sizeW, t.sizeH⟩

/-- `Tank.fire()`: no-op when reloading or dead; otherwise append a shell at
`position + dir * (size[0] // 2)` with velocity `dir * SHELL_SPEED` and reset
the reload timer to the cooldown. -/
def Tank.fire (T : Trig) (t : Tank) : Tank :=
  if t.reload_time > 0 ∨ t.alive = false then t else
  let d := vecFromAngle T t.angle
  let shellPos := t.position + d.smul ((t.sizeW.fdiv 2 : ℤ) : ℚ)
  let sh : Shell := ⟨shellPos, d.smul SHELL_SPEED, t.tid, 6, true⟩
  { t with shells := t.shells ++ [sh], reload_time := t.shell_cooldown }

/-- `Tank._update_player(dt)`: accumulate forward/backward along the pre-rotation
heading, apply rotation, then normalized movement scaled by `speed * dt`. -/
def updatePlayer (T : Trig) (keys : Keys) (dt : ℚ) (t : Tank) : Tank :=
  let mv0 : Vec2 := ⟨0, 0⟩
  let mv1 := if keys.forward then mv0 + vecFromAngle T t.angle else mv0
  let mv2 := if keys.backward then mv1 - vecFromAngle T t.angle else mv1
  let a1 := if keys.left then t.angle - t.rotation_speed * dt else t.angle
  let a2 := if keys.right then a1 + t.rotation_speed * dt else a1
  let t' := { t with angle := a2 }
  if mv2.lenSq > 0 then
    let len := T.sqrt mv2.lenSq
    { t' with position := t'.position + (Vec2.mk (mv2.x / len) (mv2.y / len)).smul (t.speed * dt) }
  else t'

/-- The angle-wrapping step of the pursuit AI:
`(desired_angle - self.angle + 180) % 360 - 180` with `x := desired - angle`. -/
def wrapDelta (x : ℚ) : ℚ := qmod (x + 180) 360 - 180

/-- `Tank._update_enemy(dt, level)`: turn toward the player (wrapped and clamped)
when the pursuit vector is long enough, advance when farther than 1.5 tiles,
fire when closer than the screen width with an elapsed reload timer. -/
def updateEnemy (T : Trig) (dt : ℚ) (player : Tank) (t : Tank) : Tank :=
  let dir := player.position - t.position
  let t1 :=
    if dir.lenSq > 1 then
      let desired := T.atan2 dir.y dir.x
      { t with angle := t.angle +
          clamp (wrapDelta (desired - t.angle)) (-(t.rotation_speed * dt)) (t.rotation_speed * dt) }
    else t
  let dist := T.sqrt dir.lenSq
  let t2 :=
    if dist > (TILE_SIZE : ℚ) * (3 / 2) then
      { t1 with position := t1.position + (vecFromAngle T t1.angle).smul (t1.speed * dt) }
    else t1
  if dist < (SCREEN_WIDTH : ℚ) ∧ t2.reload_time ≤ 0 then t2.fire T else t2

/-- One wall correction of `_handle_wall_collisions`: the four penetration
depths, their minimum, and the Python `if/elif` tie-break
(left, then right, then top, then bottom). -/
def applyCorrection (t : Tank) (r wll : Rect) : Tank :=
  let dxLeft := wll.right - r.x
  let dxRight := r.right - wll.x
  let dyTop := wll.bottom - r.y
  let dyBottom := r.bottom - wll.y
  let m := min (min (min dxLeft dxRight) dyTop) dyBottom
  if m = dxLeft then { t with position := ⟨t.position.x + (dxLeft : ℚ), t.position.y⟩ }
  else if m = dxRight then { t with position := ⟨t.position.x - (dxRight : ℚ), t.position.y⟩ }
  else if m = dyTop then { t with position := ⟨t.position.x, t.position.y + (dyTop : ℚ)⟩ }
  else { t with position := ⟨t.position.x, t.position.y - (dyBottom : ℚ)⟩ }

/-- The wall loop of `_handle_wall_collisions`: a single pass over the wall
list in order, carrying the current rect; after a correction the rect is
recomputed (and the pass aborts if it becomes None). -/
def resolveLoop (t : Tank) (r : Rect) : List Rect → Tank
  | [] => t
  | wll :: ws =>
    if collideRect r wll then
      let t' := applyCorrection t r wll
      match rectOf t' with
      | none => t'
      | some r' => resolveLoop t' r' ws
    else resolveLoop t r ws

/-- `Tank._handle_wall_collisions(walls)`. -/
def handleWallCollisions (t : Tank) (walls : List Rect) : Tank :=
  match rectOf t with
  | none => t
  | some r => resolveLoop t r walls

/-- The successive tank states produced by the corrections of `resolveLoop`
(used to phrase side conditions about intermediate positions). -/
def resolveStates (t : Tank) (r : Rect) : List Rect → List Tank
  | [] => []
  | wll :: ws =>
    if collideRect r wll then
      let t' := applyCorrection t r wll
      match rectOf t' with
      | none => [t']
      | some r' => t' :: resolveStates t' r' ws
    else resolveStates t r ws

/-- `Tank.update(dt, level)`: when alive, clamp the reload timer into
[0, cooldown], run the player or enemy behaviour, resolve wall collisions;
in every case update all owned shells and prune the dead ones. -/
def Tank.update (T : Trig) (keys : Keys) (dt : ℚ) (walls : List Rect)
    (player : Tank) (t : Tank) : Tank :=
  let t1 :=
    if t.alive then
      let ta := { t with reload_time := clamp (t.reload_time - dt) 0 t.shell_cooldown }
      let tb := if ta.is_player then updatePlayer T keys dt ta else updateEnemy T dt player ta
      handleWallCollisions tb walls
    else t
  { t1 with shells := (t1.shells.map (Shell.update dt walls)).filter (·.alive) }

/-- Replace the element at index `i` by `f` applied to it (other indices kept). -/
def listModify (l : List α) (i : ℕ) (f : α → α) : List α :=
  match l, i with
  | [], _ => []
  | a :: l', 0 => f a :: l'
  | a :: l', i' + 1 => a :: listModify l' i' f

/-- The inner target scan of `_handle_shell_collisions`: index of the first
tank that is not the shell's owner and whose (non-None) rect contains the
shell's point position. -/
def findTarget (tanks : List Tank) (s : Shell) : Option ℕ :=
  (List.range tanks.length).find? (fun k =>
    match tanks[k]? with
    | none => false
    | some tgt =>
      if tgt.tid = s.owner then false
      else match rectOf tgt with
        | none => false
        | some r => collidepoint r s.position.x s.position.y)

/-- Processing of one shell (tank `i`, shell `j`) in `_handle_shell_collisions`:
skip dead shells; on the first hit mark the shell and the struck tank dead. -/
def shellHitStep (tanks : List Tank) (i j : ℕ) : List Tank :=
  match tanks[i]? with
  | none => tanks
  | some t =>
    match t.shells[j]? with
    | none => tanks
    | some s =>
      if !s.alive then tanks else
      match findTarget tanks s with
      | none => tanks
      | some k =>
        let tanks1 := listModify tanks i (fun tw =>
          { tw with shells := listModify tw.shells j (fun sh => { sh with alive := false }) })
        listModify tanks1 k (fun tw => { tw with alive := false })

/-- `Level._handle_shell_collisions`: tanks in order (player first), each of
its shells in order, state threaded left to right. -/
def handleShellCollisions (tanks : List Tank) : List Tank :=
  (List.range tanks.length).foldl (fun acc i =>
    match acc[i]? with
    | none => acc
    | some t => (List.range t.shells.length).foldl (fun acc2 j => shellHitStep acc2 i j) acc) tanks

/-- The Level state: wall list, player, enemies, current number, death flag. -/
structure Level where
  number : ℕ
  walls : List Rect
  player : Tank
  enemies : List Tank
  player_destroyed : Bool
deriving DecidableEq, Repr

/-- `Level.update(dt)`: update the player, then each enemy (each seeing the
already-updated player), resolve shell collisions over player::enemies, prune
dead enemies, record `player_destroyed`, and report whether the level is
cleared. -/
def Level.update (T : Trig) (keys : Keys) (dt : ℚ) (L : Level) : Level × Bool :=
  let p1 := Tank.update T keys dt L.walls L.player L.player
  let es1 := L.enemies.map (Tank.update T keys dt L.walls p1)
  match handleShellCollisions (p1 :: es1) with
  | [] => (L, false)
  | p2 :: es2 =>
    let aliveEnemies := es2.filter (·.alive)
    ({ L with player := p2, enemies := aliveEnemies, player_destroyed := !p2.alive },
     aliveEnemies.isEmpty && p2.alive)

/-- Run a sequence of frames (each with its control intents and elapsed time)
through `Level.update`. -/
def runFrames (T : Trig) (L : Level) (fs : List (Keys × ℚ)) : Level :=
  fs.foldl (fun acc f => (Level.update T f.1 f.2 acc).1) L

/-- The wall tile rect at grid coordinates (x, y):
`pygame.Rect(x * TILE_SIZE, y * TILE_SIZE, TILE_SIZE, TILE_SIZE)`. -/
def mkTile (x y : ℕ) : Rect := ⟨48 * x, 48 * y, 48, 48⟩

/-- One seeded `random.Random` instance, as its two draw streams:
`floats i` is the i-th `random()` value, `ints i` the raw value behind the
i-th `randint` bound (`randint a b = a + ints i % (b - a + 1)`). -/
structure PyRNG where
  floats : ℕ → ℚ
  ints : ℕ → ℕ

/-- The random interior-row pass of `generate_map`: for `y in range(1, GRID_HEIGHT-1)`
and `x in range(GRID_WIDTH)` one `random()` draw each (the i-th call of the
seeded instance has index `(y-1) * GRID_WIDTH + x`), keeping the tile when the
draw is below 0.12. -/
def randomWalls (floats : ℕ → ℚ) : List Rect :=
  (((List.range (GRID_HEIGHT - 2)).map (fun j => j + 1)).map (fun y =>
    (List.range GRID_WIDTH).filterMap (fun x =>
      if floats ((y - 1) * GRID_WIDTH + x) < 12 / 100 then some (mkTile x y) else none))).flatten

/-- The unconditional border pass of `generate_map`: top and bottom rows
(interleaved per column), then left and right columns (interleaved per row). -/
def borderWalls : List Rect :=
  ((List.range GRID_WIDTH).map (fun x => [mkTile x 0, mkTile x (GRID_HEIGHT - 1)])).flatten ++
  ((List.range GRID_HEIGHT).map (fun y => [mkTile 0 y, mkTile (GRID_WIDTH - 1) y])).flatten

/-- The player tank constructed in `Level.__init__`: spawn at
(SCREEN_WIDTH/2, SCREEN_HEIGHT - TILE_SIZE*1.5) = (480, 648), facing up.
Identity handle 0. -/
def playerTank : Tank :=
  { tid := 0, position := ⟨480, 648⟩, angle := -90, speed := PLAYER_SPEED,
    rotation_speed := PLAYER_ROTATION_SPEED, is_player := true, reload_time := 0,
    shell_cooldown := SHELL_COOLDOWN, shells := [], sizeW := 36, sizeH := 36,
    alive := true }

/-- The player's spawn tile of `_carve_player_spawn`:
`int(position // TILE_SIZE)` per axis (floor division of floats, which is
already integral, so the final `int()` is the identity). -/
def playerSpawnTile : ℤ × ℤ :=
  (⌊playerTank.position.x / (TILE_SIZE : ℚ)⌋, ⌊playerTank.position.y / (TILE_SIZE : ℚ)⌋)

/-- The `safe_tiles` list of `_carve_player_spawn`: tiles within Chebyshev
radius 2 of the player spawn tile, clamped into the grid. -/
def safeTiles : List (ℤ × ℤ) :=
  (((List.range 5).map (fun j => (j : ℤ) - 2)).map (fun dy =>
    ((List.range 5).map (fun j => (j : ℤ) - 2)).map (fun dx =>
      (max 0 (min ((GRID_WIDTH : ℤ) - 1) (playerSpawnTile.1 + dx)),
       max 0 (min ((GRID_HEIGHT : ℤ) - 1) (playerSpawnTile.2 + dy)))))).flatten

/-- `is_safe` of `_carve_player_spawn`: border tiles are never safe, other
tiles are safe exactly when listed in `safeTiles`. -/
def is_safe (r : Rect) : Bool :=
  let tx := r.x.fdiv 48
  let ty := r.y.fdiv 48
  if tx = 0 ∨ tx = (GRID_WIDTH : ℤ) - 1 ∨ ty = 0 ∨ ty = (GRID_HEIGHT : ℤ) - 1 then false
  else decide ((tx, ty) ∈ safeTiles)

/-- `Level.generate_map` (with the `_carve_player_spawn` call it ends in):
random interior-row walls, then the unconditional border ring, then the filter
removing safe tiles. -/
def generate_map (floats : ℕ → ℚ) : List Rect :=
  (randomWalls floats ++ borderWalls).filter (fun r => !is_safe r)

/-- The requested enemy-slot count of `spawn_enemies`:
`int(LEVEL_BASE_ENEMIES + (number - 1) * LEVEL_ENEMY_SCALE)`. -/
def enemyCount (n : ℕ) : ℤ :=
  pyInt (LEVEL_BASE_ENEMIES + ((n : ℚ) - 1) * LEVEL_ENEMY_SCALE)

/-- An enemy tank as constructed in `spawn_enemies`. -/
def mkEnemy (i : ℕ) (pos : Vec2) : Tank :=
  { tid := i, position := pos, angle := 90, speed := ENEMY_SPEED,
    rotation_speed := ENEMY_ROTATION_SPEED, is_player := false, reload_time := 0,
    shell_cooldown := SHELL_COOLDOWN, shells := [], sizeW := 36, sizeH := 36,
    alive := true }

/-- The candidate position of a placement attempt: tile center
`(x * TILE_SIZE + TILE_SIZE/2, y * TILE_SIZE + TILE_SIZE/2)`. -/
def candidatePos (x y : ℤ) : Vec2 := ⟨x * 48 + 24, y * 48 + 24⟩

/-- The candidate bounding rect of a placement attempt:
`pygame.Rect(position.x - 24, position.y - 24, 48, 48)`. -/
def candidateRect (pos : Vec2) : Rect :=
  ⟨pyInt (pos.x - 24), pyInt (pos.y - 24), 48, 48⟩

/-- The attempt loop of one enemy slot: up to `att` attempts, each drawing
`x = randint(1, GRID_WIDTH - 2)` and `y = randint(1, GRID_HEIGHT // 2)` (two
draws, indices `k` and `k+1`), accepting the first candidate whose rect
collides with no wall.  Returns the accepted position (if any) and the next
draw index. -/
def tryPlace (ints : ℕ → ℕ) (walls : List Rect) : ℕ → ℕ → Option Vec2 × ℕ
  | 0, k => (none, k)
  | att + 1, k =>
    let x : ℤ := 1 + ((ints k : ℤ)) % 18
    let y : ℤ := 1 + ((ints (k + 1) : ℤ)) % 7
    let pos := candidatePos x y
    if walls.any (fun wll => collideRect (candidateRect pos) wll) then
      tryPlace ints walls att (k + 2)
    else (some pos, k + 2)

/-- The slot loop of `spawn_enemies`: each slot runs `tryPlace` with 100
attempts; a failed slot silently contributes nothing.  `i` numbers the created
enemies (identity handles 1, 2, ...). -/
def spawnLoop (ints : ℕ → ℕ) (walls : List Rect) : ℕ → ℕ → ℕ → List Tank
  | 0, _, _ => []
  | slots + 1, k, i =>
    match tryPlace ints walls 100 k with
    | (some pos, k') => mkEnemy i pos :: spawnLoop ints walls slots k' (i + 1)
    | (none, k') => spawnLoop ints walls slots k' (i + 1)

/-- `Level.spawn_enemies` for level `n` over the given walls. -/
def spawnEnemies (ints : ℕ → ℕ) (walls : List Rect) (n : ℕ) : List Tank :=
  spawnLoop ints walls (enemyCount n).toNat 0 1

/-- `Level.__init__(number)`: the map is generated from the stream seeded
exactly by `number`; the enemies from the independent stream seeded by
`number * 31 + 7`. -/
def Level.make (fam : ℕ → PyRNG) (n : ℕ) : Level :=
  let walls := generate_map (fam n).floats
  { number := n, walls := walls, player := playerTank,
    enemies := spawnEnemies (fam (n * 31 + 7)).ints walls n,
    player_destroyed := false }

/-- The interior-only random pass that §4.6 of the specification describes
(draws only for tiles on neither a border row nor a border column), stated for
comparison with `randomWalls`.  Modelled from the spec's words, not the code. -/
def randomWallsSpecInterior (floats : ℕ → ℚ) : List Rect :=
  (((List.range (GRID_HEIGHT - 2)).map (fun j => j + 1)).map (fun y =>
    (((List.range (GRID_WIDTH - 2)).map (fun j => j + 1)).filterMap (fun x =>
      if floats ((y - 1) * (GRID_WIDTH - 2) + (x - 1)) < 12 / 100 then
        some (mkTile x y) else none)))).flatten

/-- All shells present anywhere in a level state (player's and enemies'). -/
def allShells (L : Level) : List Shell :=
  L.player.shells ++ (L.enemies.map (·.shells)).flatten

/-- The motion data of a shell (everything except its alive flag). -/
def shellCore (s : Shell) : Vec2 × Vec2 × ℕ × ℚ :=
  (s.position, s.velocity, s.owner, s.radius)

/-- The data of a tank that the shell-collision pass never touches:
identity, pose, timers and the motion data of its shells. -/
def tankCore (t : Tank) : ℕ × Vec2 × ℚ × ℚ × List (Vec2 × Vec2 × ℕ × ℚ) :=
  (t.tid, t.position, t.angle, t.reload_time, t.shells.map shellCore)

/-- An operation applied to a single tank: one `Tank.update` frame (with its
intents, elapsed time, wall list and player reference) or an external
`fire()` call. -/
inductive TankOp where
  | frame (keys : Keys) (dt : ℚ) (walls : List Rect) (player : Tank)
  | fireNow

/-- Run a sequence of update/fire operations on a tank. -/
def runOps (T : Trig) (t : Tank) (ops : List TankOp) : Tank :=
  ops.foldl (fun acc op =>
    match op with
    | TankOp.frame keys dt walls player => Tank.update T keys dt walls player acc
    | TankOp.fireNow => acc.fire T) t

/-- The elapsed time of an operation (0 for a fire call). -/
def TankOp.dtOf : TankOp → ℚ
  | TankOp.frame _ dt _ _ => dt
  | TankOp.fireNow => 0

/-- An arbitrary concrete trig model, used only to instantiate theorems that
hold for every trig model (witnesses). -/
def trig0 : Trig := ⟨fun _ => 1, fun _ => 0, fun _ _ => 0, fun _ => 0⟩

/-- The trig model of the C1 scenario.  It agrees with the real functions at
every input the scenario consumes: the pursuit direction there is (0, -60),
and `math.degrees(math.atan2 y 0) = -90` for `y < 0` while `sqrt 3600 = 60`
exactly; `cosd`/`sind` are never consumed (no key is pressed, and the enemy
neither moves — distance 60 is within 1.5 tiles — nor fires — its reload
timer is still positive). -/
def trigC1 : Trig :=
  ⟨fun _ => 1, fun _ => 0,
   fun y x => if x = 0 ∧ y < 0 then -90 else 0,
   fun q => if q = 3600 then 60 else 0⟩

/-- No control intents pressed. -/
def keys0 : Keys := ⟨false, false, false, false⟩

/-- A player-owned shell flying toward the enemy of the C1 scenario. -/
def shellP : Shell := ⟨⟨250, 300⟩, ⟨400, 0⟩, 0, 6, true⟩

/-- An enemy-owned shell in open space (away from walls and bounds). -/
def shellE : Shell := ⟨⟨500, 500⟩, ⟨400, 0⟩, 1, 6, true⟩

/-- The player of the C1 scenario: 60 pixels straight above the enemy, not
moving (no key pressed). -/
def playerX : Tank :=
  { tid := 0, position := ⟨300, 240⟩, angle := 0, speed := 180, rotation_speed := 180,
    is_player := true, reload_time := 1 / 2, shell_cooldown := 3 / 5, shells := [shellP],
    sizeW := 36, sizeH := 36, alive := true }

/-- The enemy of the C1 scenario: already facing the player (heading -90, the
exact bearing of the pursuit direction (0, -60)), within the 1.5-tile
stand-off distance so it does not advance, reloading so it does not fire;
about to be struck by `shellP`, owning the still-flying `shellE`. -/
def enemyX : Tank :=
  { tid := 1, position := ⟨300, 300⟩, angle := -90, speed := 120, rotation_speed := 120,
    is_player := false, reload_time := 1 / 2, shell_cooldown := 3 / 5, shells := [shellE],
    sizeW := 36, sizeH := 36, alive := true }

/-- The level state of the C1 scenario (no walls). -/
def levelX : Level := ⟨1, [], playerX, [enemyX], false⟩

/-- A level whose player is already dead but still owns a flying shell
(used to witness that a dead player's shells keep being updated). -/
def levelDeadX : Level := ⟨1, [], { playerX with alive := false }, [enemyX], false⟩

/-- A trig model for the C5 scenario (`atan2 = 0` agrees with the real
`atan2` on the pursuit direction (0, 10) used there). -/
def trig5 : Trig := ⟨fun _ => 1, fun _ => 0, fun _ _ => 0, fun _ => 10⟩

/-- The enemy of the C5 scenario: heading 180° while the player sits at
bearing 0°, so the wrapped turn lands exactly on the -180 endpoint. -/
def enemy5 : Tank :=
  { tid := 1, position := ⟨0, 0⟩, angle := 180, speed := 120, rotation_speed := 120,
    is_player := false, reload_time := 1, shell_cooldown := 3 / 5, shells := [],
    sizeW := 36, sizeH := 36, alive := true }

/-- The player of the C5 scenario. -/
def player5 : Tank := { enemy5 with tid := 0, position := ⟨10, 0⟩ }

/-- The tank of the C4 scenario: overlapping only the second wall of the list,
about to be pushed back into the first. -/
def tank4 : Tank :=
  { tid := 0, position := ⟨24, 67⟩, angle := 0, speed := 180, rotation_speed := 180,
    is_player := true, reload_time := 0, shell_cooldown := 3 / 5, shells := [],
    sizeW := 36, sizeH := 36, alive := true }

/-- First wall of the C4 scenario (tile above the second). -/
def wall4A : Rect := ⟨0, 0, 48, 48⟩

/-- Second wall of the C4 scenario. -/
def wall4B : Rect := ⟨0, 48, 48, 48⟩

/-- The tank of the C9 witness, with bounding rect (0, 0, 36, 36). -/
def tank9 : Tank :=
  { tid := 0, position := ⟨18, 18⟩, angle := 0, speed := 180, rotation_speed := 180,
    is_player := true, reload_time := 0, shell_cooldown := 3 / 5, shells := [],
    sizeW := 36, sizeH := 36, alive := true }

/-- The wall of the C9 witness: penetration depths left 5, right 40, top 3,
bottom 50 against `tank9`'s rect. -/
def wall9 : Rect := ⟨-4, -14, 9, 17⟩

/-- A constant RNG family: every `random()` draw is 1 (no random walls) and
every raw `randint` value is 0 (every candidate is tile (1, 1)). -/
def famConst : ℕ → PyRNG := fun _ => ⟨fun _ => 1, fun _ => 0⟩

/-- The float stream of the C3 counterexample: only draw number 20 is below
0.12. -/
def floats3 : ℕ → ℚ := fun i => if i = 20 then 0 else 1

/-- An RNG family that agrees with `famConst` on seeds 1 and 38 = 1*31+7 only
(used to witness that a level depends on its seeds alone). -/
def famAlt : ℕ → PyRNG :=
  fun k => if k = 1 ∨ k = 38 then ⟨fun _ => 1, fun _ => 0⟩ else ⟨fun _ => 0, fun _ => 7⟩

/-- The state region in which the `int()` truncation of a tank's rect moves
exactly with its position (both rect corners at nonnegative coordinates). -/
def SafePos (t : Tank) : Prop :=
  0 ≤ t.position.x - (t.sizeW : ℚ) / 2 ∧ 0 ≤ t.position.y - (t.sizeH : ℚ) / 2

instance (t : Tank) : Decidable (SafePos t) := by unfold SafePos; infer_instance

/-- The wrapped signed angular difference the pursuit AI computes for tank `t`
chasing `player` under trig model `T` (the `angle_delta` of `_update_enemy`). -/
def pursuitDelta (T : Trig) (player t : Tank) : ℚ :=
  wrapDelta (T.atan2 (player.position - t.position).y (player.position - t.position).x - t.angle)

/- ------------------------------------------------------------------ -/
/- Helper lemmas                                                       -/
/- ------------------------------------------------------------------ -/

theorem pyInt_of_nonneg {q : ℚ} (h : 0 ≤ q) : pyInt q = ⌊q⌋ := by
  simp [pyInt, h]

theorem pyInt_add_int {q : ℚ} (k : ℤ) (h : 0 ≤ q) (h' : 0 ≤ q + (k : ℚ)) :
    pyInt (q + (k : ℚ)) = pyInt q + k := by
  rw [pyInt_of_nonneg h, pyInt_of_nonneg h', Int.floor_add_int]

theorem pyInt_sub_int {q : ℚ} (k : ℤ) (h : 0 ≤ q) (h' : 0 ≤ q - (k : ℚ)) :
    pyInt (q - (k : ℚ)) = pyInt q - k := by
  rw [pyInt_of_nonneg h, pyInt_of_nonneg h', Int.floor_sub_int]

theorem qmod360_bounds (a : ℚ) : 0 ≤ qmod a 360 ∧ qmod a 360 < 360 := by
  unfold qmod
  have h1 : (⌊a / 360⌋ : ℚ) ≤ a / 360 := Int.floor_le _
  have h2 : a / 360 < ⌊a / 360⌋ + 1 := Int.lt_floor_add_one _
  have ha : a = 360 * (a / 360) := by ring
  constructor <;> nlinarith

theorem wrapDelta_bounds (x : ℚ) : -180 ≤ wrapDelta x ∧ wrapDelta x < 180 := by
  have h := qmod360_bounds (x + 180)
  unfold wrapDelta
  constructor <;> linarith [h.1, h.2]

theorem clamp_le_hi {v lo hi : ℚ} (h : lo ≤ hi) : clamp v lo hi ≤ hi :=
  max_le h (min_le_right _ _)

theorem lo_le_clamp (v lo hi : ℚ) : lo ≤ clamp v lo hi := le_max_left _ _

/-- C2: a level is fully determined by its number: the walls depend only on
the stream seeded exactly by the level number, and the whole level (walls and
enemy placements) depends only on that stream together with the independent
stream seeded by `number * 31 + 7`. -/
theorem C2_level_determined_by_number (fam1 fam2 : ℕ → PyRNG) (n : ℕ)
    (hmap : fam1 n = fam2 n) :
    (Level.make fam1 n).walls = (Level.make fam2 n).walls ∧
    (fam1 (n * 31 + 7) = fam2 (n * 31 + 7) → Level.make fam1 n = Level.make fam2 n) := by
  refine ⟨by simp [Level.make, hmap], fun henemy => by simp [Level.make, hmap, henemy]⟩

/-- C2 witness: `famAlt` agrees with `famConst` on seeds 1 and 38 = 1*31+7, so
both families build the same Level 1. -/
theorem C2_witness :
    (Level.make famConst 1).walls = (Level.make famAlt 1).walls ∧
    Level.make famConst 1 = Level.make famAlt 1 := by
  have h1 : famConst 1 = famAlt 1 := by simp [famConst, famAlt]
  have h2 : famConst (1 * 31 + 7) = famAlt (1 * 31 + 7) := by simp [famConst, famAlt]
  exact ⟨(C2_level_determined_by_number famConst famAlt 1 h1).1,
         (C2_level_determined_by_number famConst famAlt 1 h1).2 h2⟩

theorem tryPlace_some {ints : ℕ → ℕ} {walls : List Rect} :
    ∀ {att k : ℕ} {pos : Vec2} {k' : ℕ}, tryPlace ints walls att k = (some pos, k') →
    (∃ tx ty : ℤ, 1 ≤ tx ∧ tx ≤ 18 ∧ 1 ≤ ty ∧ ty ≤ 7 ∧ pos = candidatePos tx ty) ∧
    walls.any (fun wll => collideRect (candidateRect pos) wll) = false := by
  intro att
  induction att with
  | zero => intro k pos k' h; simp [tryPlace] at h
  | succ a ih =>
    intro k pos k' h
    rw [tryPlace] at h
    by_cases hc : walls.any (fun wll => collideRect
        (candidateRect (candidatePos (1 + ((ints k : ℤ)) % 18) (1 + ((ints (k + 1) : ℤ)) % 7))) wll) = true
    · rw [if_pos hc] at h
      exact ih h
    · rw [if_neg hc] at h
      injection h with h1 h2
      injection h1 with h1
      have hpos : pos = candidatePos (1 + ((ints k : ℤ)) % 18) (1 + ((ints (k + 1) : ℤ)) % 7) :=
        h1.symm
      constructor
      · refine ⟨1 + ((ints k : ℤ)) % 18, 1 + ((ints (k + 1) : ℤ)) % 7, ?_, ?_, ?_, ?_, hpos⟩
        · have := Int.emod_nonneg ((ints k : ℤ)) (by norm_num : (18 : ℤ) ≠ 0); omega
        · have := Int.emod_lt_of_pos ((ints k : ℤ)) (by norm_num : (0 : ℤ) < 18); omega
        · have := Int.emod_nonneg ((ints (k + 1) : ℤ)) (by norm_num : (7 : ℤ) ≠ 0); omega
        · have := Int.emod_lt_of_pos ((ints (k + 1) : ℤ)) (by norm_num : (0 : ℤ) < 7); omega
      · rw [hpos]
        exact eq_false_of_ne_true hc

theorem spawnLoop_length {ints : ℕ → ℕ} {walls : List Rect} :
    ∀ (slots k i : ℕ), (spawnLoop ints walls slots k i).length ≤ slots := by
  intro slots
  induction slots with
  | zero => intro k i; simp [spawnLoop]
  | succ s ih =>
    intro k i
    rcases h : tryPlace ints walls 100 k with ⟨fst, k'⟩
    cases fst with
    | none =>
      rw [spawnLoop, h]
      exact Nat.le_succ_of_le (ih k' (i + 1))
    | some pos =>
      rw [spawnLoop, h]
      simpa using ih k' (i + 1)

theorem spawnLoop_mem {ints : ℕ → ℕ} {walls : List Rect} :
    ∀ {slots k i : ℕ} {e : Tank}, e ∈ spawnLoop ints walls slots k i →
    (∃ tx ty : ℤ, 1 ≤ tx ∧ tx ≤ 18 ∧ 1 ≤ ty ∧ ty ≤ 7 ∧ e.position = candidatePos tx ty) ∧
    walls.any (fun wll => collideRect (candidateRect e.position) wll) = false := by
  intro slots
  induction slots with
  | zero => intro k i e h; simp [spawnLoop] at h
  | succ s ih =>
    intro k i e h
    rcases hh : tryPlace ints walls 100 k with ⟨fst, k'⟩
    rw [spawnLoop, hh] at h
    cases fst with
    | none => exact ih h
    | some pos =>
      rcases List.mem_cons.mp h with he | he
      · have := tryPlace_some hh
        rw [he]
        exact ⟨this.1, this.2⟩
      · exact ih he

theorem tryPlace_next_le {ints : ℕ → ℕ} {walls : List Rect} :
    ∀ (att k : ℕ), (tryPlace ints walls att k).2 ≤ k + 2 * att := by
  intro att
  induction att with
  | zero => intro k; simp [tryPlace]
  | succ a ih =>
    intro k
    rw [tryPlace]
    split
    · have := ih (k + 2); omega
    · simp only []
      omega

/-- C7: the requested enemy-slot count is `floor(2 + (N-1)*1.25)` for every
positive level number N (2, 3, 7 at N = 1, 2, 5), it is monotone in N, each
slot makes at most 100 attempts (two bounded draws per attempt) confined to
tile columns 1..GRID_WIDTH-2 and rows 1..GRID_HEIGHT//2 (the upper half), and
a slot whose attempts all fail silently contributes no enemy. -/
theorem C7_enemy_slots :
    (∀ n : ℕ, 1 ≤ n →
        enemyCount n = ⌊LEVEL_BASE_ENEMIES + ((n : ℚ) - 1) * LEVEL_ENEMY_SCALE⌋) ∧
    (enemyCount 1 = 2 ∧ enemyCount 2 = 3 ∧ enemyCount 5 = 7) ∧
    (∀ n m : ℕ, 1 ≤ n → n ≤ m → enemyCount n ≤ enemyCount m) ∧
    (∀ (ints : ℕ → ℕ) (walls : List Rect) (n : ℕ),
        (spawnEnemies ints walls n).length ≤ (enemyCount n).toNat) ∧
    (∀ (ints : ℕ → ℕ) (walls : List Rect) (n : ℕ), ∀ e ∈ spawnEnemies ints walls n,
        ∃ tx ty : ℤ, 1 ≤ tx ∧ tx ≤ (GRID_WIDTH : ℤ) - 2 ∧ 1 ≤ ty ∧
          ty ≤ (GRID_HEIGHT : ℤ) / 2 ∧ e.position = candidatePos tx ty) ∧
    (∀ (ints : ℕ → ℕ) (walls : List Rect) (att k : ℕ),
        (tryPlace ints walls att k).2 ≤ k + 2 * att) ∧
    (∀ (ints : ℕ → ℕ) (walls : List Rect) (slots k i k' : ℕ),
        tryPlace ints walls 100 k = (none, k') →
        spawnLoop ints walls (slots + 1) k i = spawnLoop ints walls slots k' (i + 1)) := by
  have hval : ∀ n : ℕ, 1 ≤ n →
      enemyCount n = ⌊LEVEL_BASE_ENEMIES + ((n : ℚ) - 1) * LEVEL_ENEMY_SCALE⌋ := by
    intro n hn
    have h1 : (1 : ℚ) ≤ (n : ℚ) := by exact_mod_cast hn
    have h0 : 0 ≤ LEVEL_BASE_ENEMIES + ((n : ℚ) - 1) * LEVEL_ENEMY_SCALE := by
      unfold LEVEL_BASE_ENEMIES LEVEL_ENEMY_SCALE; nlinarith
    unfold enemyCount
    exact pyInt_of_nonneg h0
  refine ⟨hval, ⟨by decide, by decide, by decide⟩, ?_, ?_, ?_, ?_, ?_⟩
  · intro n m hn hm
    rw [hval n hn, hval m (le_trans hn hm)]
    apply Int.floor_le_floor
    have : (n : ℚ) ≤ (m : ℚ) := by exact_mod_cast hm
    unfold LEVEL_BASE_ENEMIES LEVEL_ENEMY_SCALE
    nlinarith
  · intro ints walls n
    unfold spawnEnemies
    exact spawnLoop_length _ _ _
  · intro ints walls n e he
    have := (spawnLoop_mem he).1
    simpa [GRID_WIDTH, GRID_HEIGHT] using this
  · intro ints walls att k
    exact tryPlace_next_le att k
  · intro ints walls slots k i k' h
    rw [spawnLoop, h]

/-- C7 witness: level 1 with the constant RNG family requests 2 slots and
places 2 enemies, both inside the upper half of the arena. -/
theorem C7_witness :
    enemyCount 1 = ⌊LEVEL_BASE_ENEMIES + ((1 : ℚ) - 1) * LEVEL_ENEMY_SCALE⌋ ∧
    enemyCount 1 ≤ enemyCount 2 ∧
    (spawnEnemies (fun _ => 0) borderWalls 1).length ≤ (enemyCount 1).toNat := by
  refine ⟨(C7_enemy_slots.1 1 (by norm_num)), ?_, ?_⟩
  · exact (C7_enemy_slots.2.2.1 1 2 (by norm_num) (by norm_num))
  · exact (C7_enemy_slots.2.2.2.1 (fun _ => 0) borderWalls 1)

theorem applyCorrection_eq (t : Tank) (r wll : Rect) :
    ∃ p, applyCorrection t r wll = { t with position := p } := by
  unfold applyCorrection
  dsimp only
  split_ifs <;> exact ⟨_, rfl⟩

theorem resolveLoop_eq : ∀ (ws : List Rect) (t : Tank) (r : Rect),
    ∃ p, resolveLoop t r ws = { t with position := p } := by
  intro ws
  induction ws with
  | nil => intro t r; exact ⟨t.position, rfl⟩
  | cons wll ws ih =>
    intro t r
    rw [resolveLoop]
    by_cases hc : collideRect r wll
    · rw [if_pos hc]
      dsimp only
      cases hr' : rectOf (applyCorrection t r wll) with
      | none => exact applyCorrection_eq t r wll
      | some r' =>
        obtain ⟨p1, hp1⟩ := applyCorrection_eq t r wll
        obtain ⟨p2, hp2⟩ := ih (applyCorrection t r wll) r'
        refine ⟨p2, ?_⟩
        show resolveLoop (applyCorrection t r wll) r' ws = { t with position := p2 }
        rw [hp2, hp1]
    · rw [if_neg hc]
      exact ih t r

theorem handleWallCollisions_eq (t : Tank) (walls : List Rect) :
    ∃ p, handleWallCollisions t walls = { t with position := p } := by
  unfold handleWallCollisions
  cases hr : rectOf t with
  | none => exact ⟨t.position, rfl⟩
  | some r => exact resolveLoop_eq walls t r

theorem fire_tid (T : Trig) (t : Tank) : (t.fire T).tid = t.tid := by
  unfold Tank.fire; split_ifs <;> rfl

theorem fire_position (T : Trig) (t : Tank) : (t.fire T).position = t.position := by
  unfold Tank.fire; split_ifs <;> rfl

theorem fire_angle (T : Trig) (t : Tank) : (t.fire T).angle = t.angle := by
  unfold Tank.fire; split_ifs <;> rfl

theorem fire_alive (T : Trig) (t : Tank) : (t.fire T).alive = t.alive := by
  unfold Tank.fire; split_ifs <;> rfl

theorem fire_cooldown (T : Trig) (t : Tank) : (t.fire T).shell_cooldown = t.shell_cooldown := by
  unfold Tank.fire; split_ifs <;> rfl

theorem fire_reload (T : Trig) (t : Tank) :
    (t.fire T).reload_time = t.reload_time ∨ (t.fire T).reload_time = t.shell_cooldown := by
  unfold Tank.fire
  split_ifs
  · exact Or.inl rfl
  · exact Or.inr rfl

theorem updatePlayer_pres (T : Trig) (keys : Keys) (dt : ℚ) (t : Tank) :
    (updatePlayer T keys dt t).tid = t.tid ∧
    (updatePlayer T keys dt t).reload_time = t.reload_time ∧
    (updatePlayer T keys dt t).shell_cooldown = t.shell_cooldown ∧
    (updatePlayer T keys dt t).alive = t.alive ∧
    (updatePlayer T keys dt t).shells = t.shells := by
  unfold updatePlayer
  dsimp only
  split_ifs <;> simp

theorem updateEnemy_pres (T : Trig) (dt : ℚ) (player t : Tank) :
    (updateEnemy T dt player t).tid = t.tid ∧
    (updateEnemy T dt player t).shell_cooldown = t.shell_cooldown ∧
    (updateEnemy T dt player t).alive = t.alive ∧
    ((updateEnemy T dt player t).reload_time = t.reload_time ∨
     (updateEnemy T dt player t).reload_time = t.shell_cooldown) := by
  unfold updateEnemy
  dsimp only
  split_ifs <;>
    refine ⟨by simp [fire_tid], by simp [fire_cooldown], by simp [fire_alive], ?_⟩ <;>
    first
      | exact Or.inl rfl
      | rcases fire_reload T _ with h | h
        · exact Or.inl (by simpa using h)
        · exact Or.inr (by simpa using h)

theorem tankUpdate_pres (T : Trig) (keys : Keys) (dt : ℚ) (walls : List Rect)
    (player t : Tank) :
    (Tank.update T keys dt walls player t).tid = t.tid ∧
    (Tank.update T keys dt walls player t).shell_cooldown = t.shell_cooldown ∧
    (Tank.update T keys dt walls player t).alive = t.alive ∧
    ((Tank.update T keys dt walls player t).reload_time = t.reload_time ∨
     (Tank.update T keys dt walls player t).reload_time =
       clamp (t.reload_time - dt) 0 t.shell_cooldown ∨
     (Tank.update T keys dt walls player t).reload_time = t.shell_cooldown) := by
  unfold Tank.update
  by_cases ha : t.alive
  · rw [if_pos ha]
    dsimp only
    set ta : Tank := { t with reload_time := clamp (t.reload_time - dt) 0 t.shell_cooldown }
    by_cases hp : ta.is_player
    · rw [if_pos hp]
      obtain ⟨p, hwc⟩ := handleWallCollisions_eq (updatePlayer T keys dt ta) walls
      rw [hwc]
      have h := updatePlayer_pres T keys dt ta
      exact ⟨h.1, h.2.2.1, by simp [h.2.2.2.1, ha], Or.inr (Or.inl h.2.1)⟩
    · rw [if_neg hp]
      obtain ⟨p, hwc⟩ := handleWallCollisions_eq (updateEnemy T dt player ta) walls
      rw [hwc]
      have h := updateEnemy_pres T dt player ta
      refine ⟨h.1, h.2.1, by simp [h.2.2.1, ha], ?_⟩
      rcases h.2.2.2 with hr | hr
      · exact Or.inr (Or.inl hr)
      · exact Or.inr (Or.inr hr)
  · rw [if_neg ha]
    exact ⟨rfl, rfl, rfl, Or.inl rfl⟩

/-- C8: over any sequence of `update` frames (with nonnegative elapsed time)
and external `fire` calls, a tank's reload timer stays within [0, cooldown],
and its cooldown constant never changes. -/
theorem C8_reload_invariant (T : Trig) (t : Tank) (ops : List TankOp)
    (h0 : 0 ≤ t.reload_time) (h1 : t.reload_time ≤ t.shell_cooldown)
    (hdt : ∀ op ∈ ops, 0 ≤ op.dtOf) :
    0 ≤ (runOps T t ops).reload_time ∧
    (runOps T t ops).reload_time ≤ (runOps T t ops).shell_cooldown ∧
    (runOps T t ops).shell_cooldown = t.shell_cooldown := by
  induction ops generalizing t with
  | nil => exact ⟨h0, h1, rfl⟩
  | cons op ops ih =>
    have hc : 0 ≤ t.shell_cooldown := le_trans h0 h1
    have hstep : ∀ t' : Tank, t'.shell_cooldown = t.shell_cooldown →
        (t'.reload_time = t.reload_time ∨
         t'.reload_time = clamp (t.reload_time - op.dtOf) 0 t.shell_cooldown ∨
         t'.reload_time = t.shell_cooldown) →
        0 ≤ t'.reload_time ∧ t'.reload_time ≤ t'.shell_cooldown := by
      intro t' hcool hr
      rcases hr with hr | hr | hr <;> rw [hr, hcool]
      · exact ⟨h0, h1⟩
      · exact ⟨lo_le_clamp _ _ _, clamp_le_hi hc⟩
      · exact ⟨hc, le_refl _⟩
    cases op with
    | frame keys dt walls player =>
      have h := tankUpdate_pres T keys dt walls player t
      have hb := hstep (Tank.update T keys dt walls player t) h.2.1
        (by simpa [TankOp.dtOf] using h.2.2.2)
      have := ih (Tank.update T keys dt walls player t) hb.1 (by rw [h.2.1] at hb ⊢; exact hb.2)
        (fun o ho => hdt o (List.mem_cons_of_mem _ ho))
      simp only [runOps, List.foldl_cons] at this ⊢
      exact ⟨this.1, this.2.1, this.2.2.trans h.2.1⟩
    | fireNow =>
      have hcool := fire_cooldown T t
      have hb : 0 ≤ (t.fire T).reload_time ∧ (t.fire T).reload_time ≤ (t.fire T).shell_cooldown := by
        rcases fire_reload T t with hr | hr <;> rw [hr, hcool]
        · exact ⟨h0, h1⟩
        · exact ⟨hc, le_refl _⟩
      have := ih (t.fire T) hb.1 (by rw [hcool] at hb ⊢; exact hb.2)
        (fun o ho => hdt o (List.mem_cons_of_mem _ ho))
      simp only [runOps, List.foldl_cons] at this ⊢
      exact ⟨this.1, this.2.1, this.2.2.trans hcool⟩

/-- C8 witness: a fresh enemy tank run through one frame and one fire call
keeps its reload timer in [0, cooldown]. -/
theorem C8_witness :
    0 ≤ (runOps trig0 (mkEnemy 1 ⟨100, 100⟩)
        [TankOp.frame keys0 (1 / 10) [] playerTank, TankOp.fireNow]).reload_time ∧
    (runOps trig0 (mkEnemy 1 ⟨100, 100⟩)
        [TankOp.frame keys0 (1 / 10) [] playerTank, TankOp.fireNow]).reload_time ≤
      (runOps trig0 (mkEnemy 1 ⟨100, 100⟩)
        [TankOp.frame keys0 (1 / 10) [] playerTank, TankOp.fireNow]).shell_cooldown ∧
    (runOps trig0 (mkEnemy 1 ⟨100, 100⟩)
        [TankOp.frame keys0 (1 / 10) [] playerTank, TankOp.fireNow]).shell_cooldown =
      (mkEnemy 1 ⟨100, 100⟩).shell_cooldown :=
  C8_reload_invariant trig0 (mkEnemy 1 ⟨100, 100⟩)
    [TankOp.frame keys0 (1 / 10) [] playerTank, TankOp.fireNow]
    (by decide) (by decide)
    (by intro op hop; rcases List.mem_cons.mp hop with h | h
        · rw [h]; decide
        · rcases List.mem_cons.mp h with h' | h'
          · rw [h']; decide
          · simp at h')

theorem updateEnemy_angle (T : Trig) (dt : ℚ) (player t : Tank)
    (hlen : (player.position - t.position).lenSq > 1) :
    (updateEnemy T dt player t).angle =
      t.angle + clamp (pursuitDelta T player t)
        (-(t.rotation_speed * dt)) (t.rotation_speed * dt) := by
  unfold updateEnemy pursuitDelta
  dsimp only
  rw [if_pos hlen]
  split_ifs <;> simp [fire_angle]

/-- C5 counterexample: with the enemy heading 180° and the player at bearing
0° (so `atan2 = 0`, as for the real `atan2` on the direction (0, 10)), the
wrapped angular difference `angle_delta` is exactly -180, which lies outside
the claimed interval (-180, 180]; the applied turn is the clamp of -180
(one frame at rotation speed 120 and dt 1 turns the enemy to 60°, not toward
+180). -/
theorem C5_counterexample :
    ((player5.position - enemy5.position).lenSq > 1) ∧
    pursuitDelta trig5 player5 enemy5 = -180 ∧
    ¬ (-180 < pursuitDelta trig5 player5 enemy5 ∧
       pursuitDelta trig5 player5 enemy5 ≤ 180) ∧
    (updateEnemy trig5 1 player5 enemy5).angle = 60 :=
  ⟨by decide, by decide, by decide, by decide⟩

/-- C5 (amended): whenever the pursuit vector's squared length exceeds the
epsilon guard 1, the wrapped signed angular difference lies in [-180, 180)
(not (-180, 180]: a difference of exactly 180° wraps to -180), and the heading
change applied in the frame is its clamp into
[-rotation_speed*dt, rotation_speed*dt], which never overshoots the wrapped
target. -/
theorem C5_pursuit_turn (T : Trig) (t player : Tank) (dt : ℚ)
    (hlen : (player.position - t.position).lenSq > 1)
    (ha : 0 ≤ t.rotation_speed * dt) :
    (-180 ≤ pursuitDelta T player t ∧ pursuitDelta T player t < 180) ∧
    (updateEnemy T dt player t).angle =
      t.angle + clamp (pursuitDelta T player t)
        (-(t.rotation_speed * dt)) (t.rotation_speed * dt) ∧
    (-(t.rotation_speed * dt) ≤ clamp (pursuitDelta T player t)
        (-(t.rotation_speed * dt)) (t.rotation_speed * dt) ∧
     clamp (pursuitDelta T player t)
        (-(t.rotation_speed * dt)) (t.rotation_speed * dt) ≤ t.rotation_speed * dt) ∧
    (0 ≤ pursuitDelta T player t →
      0 ≤ clamp (pursuitDelta T player t)
            (-(t.rotation_speed * dt)) (t.rotation_speed * dt) ∧
      clamp (pursuitDelta T player t)
            (-(t.rotation_speed * dt)) (t.rotation_speed * dt) ≤ pursuitDelta T player t) ∧
    (pursuitDelta T player t ≤ 0 →
      pursuitDelta T player t ≤ clamp (pursuitDelta T player t)
            (-(t.rotation_speed * dt)) (t.rotation_speed * dt) ∧
      clamp (pursuitDelta T player t)
            (-(t.rotation_speed * dt)) (t.rotation_speed * dt) ≤ 0) := by
  refine ⟨wrapDelta_bounds _, updateEnemy_angle T dt player t hlen,
    ⟨lo_le_clamp _ _ _, clamp_le_hi (by linarith)⟩, ?_, ?_⟩
  · intro h0
    constructor
    · exact (le_min h0 ha).trans (le_max_right _ _)
    · exact max_le (by linarith) (min_le_left _ _)
  · intro h0
    constructor
    · unfold clamp
      rw [min_eq_left (h0.trans ha)]
      exact le_max_right _ _
    · exact max_le (by linarith) ((min_le_left _ _).trans h0)

/-- C5 witness: the amended theorem applied at the concrete C5 scenario (where
the wrapped difference is the endpoint -180 and the applied turn is -120). -/
theorem C5_witness :
    -180 ≤ pursuitDelta trig5 player5 enemy5 ∧
    (updateEnemy trig5 1 player5 enemy5).angle =
      enemy5.angle + clamp (pursuitDelta trig5 player5 enemy5)
        (-(enemy5.rotation_speed * 1)) (enemy5.rotation_speed * 1) :=
  ⟨(C5_pursuit_turn trig5 enemy5 player5 1 (by decide) (by decide)).1.1,
   (C5_pursuit_turn trig5 enemy5 player5 1 (by decide) (by decide)).2.1⟩

/-- C9: a vehicle whose rect overlaps the single wall of the list with
penetration depths left 5, right 40, top 3, bottom 50 is pushed along the top
axis (the minimum depth, +3 on y), and its recomputed rect no longer overlaps
that wall. -/
theorem C9_min_axis_resolution (t : Tank) (wll r : Rect)
    (hr0 : rectOf t = some r)
    (h1 : wll.right - r.x = 5) (h2 : r.right - wll.x = 40)
    (h3 : wll.bottom - r.y = 3) (h4 : r.bottom - wll.y = 50)
    (hy : 0 ≤ t.position.y - (t.sizeH : ℚ) / 2) :
    (handleWallCollisions t [wll]).position = ⟨t.position.x, t.position.y + 3⟩ ∧
    ∃ r', rectOf (handleWallCollisions t [wll]) = some r' ∧ collideRect r' wll = false := by
  have hr := hr0
  unfold rectOf at hr
  by_cases hcond : t.sizeW = 0 ∨ t.sizeH = 0 ∨ t.alive = false
  · rw [if_pos hcond] at hr; exact absurd hr (by simp)
  rw [if_neg hcond] at hr
  injection hr with hr
  have hrx : r.x = pyInt (t.position.x - (t.sizeW : ℚ) / 2) := by rw [← hr]
  have hry : r.y = pyInt (t.position.y - (t.sizeH : ℚ) / 2) := by rw [← hr]
  have hrw : r.w = t.sizeW := by rw [← hr]
  have hrh : r.h = t.sizeH := by rw [← hr]
  have hc : collideRect r wll = true := by
    simp only [collideRect, Rect.right, Rect.bottom] at h1 h2 h3 h4 ⊢
    simp only [Bool.and_eq_true, decide_eq_true_eq]
    omega
  have happ : applyCorrection t r wll =
      { t with position := ⟨t.position.x, t.position.y + 3⟩ } := by
    unfold applyCorrection
    dsimp only
    rw [h1, h2, h3, h4]
    norm_num
  have harith : t.position.y + 3 - (t.sizeH : ℚ) / 2 =
      t.position.y - (t.sizeH : ℚ) / 2 + ((3 : ℤ) : ℚ) := by push_cast; ring
  have ht' : rectOf ({ t with position := ⟨t.position.x, t.position.y + 3⟩ } : Tank) =
      some ⟨r.x, r.y + 3, r.w, r.h⟩ := by
    unfold rectOf
    rw [if_neg hcond]
    have hx' : pyInt (t.position.x - (t.sizeW : ℚ) / 2) = r.x := hrx.symm
    have hy' : pyInt (t.position.y + 3 - (t.sizeH : ℚ) / 2) = r.y + 3 := by
      rw [harith, pyInt_add_int 3 hy (by push_cast; linarith), ← hry]
    simp only [Option.some.injEq, Rect.mk.injEq]
    exact ⟨hx', hy', hrw.symm, hrh.symm⟩
  have hnc : collideRect ⟨r.x, r.y + 3, r.w, r.h⟩ wll = false := by
    simp only [collideRect, Rect.right, Rect.bottom] at h3 ⊢
    rw [Bool.eq_false_iff]
    intro hcontra
    simp only [Bool.and_eq_true, decide_eq_true_eq] at hcontra
    omega
  have hfin : handleWallCollisions t [wll] =
      { t with position := ⟨t.position.x, t.position.y + 3⟩ } := by
    unfold handleWallCollisions
    rw [hr0]
    dsimp only
    rw [resolveLoop.eq_def]
    dsimp only
    rw [if_pos hc]
    rw [happ, ht']
    rfl
  exact ⟨by rw [hfin], ⟨r.x, r.y + 3, r.w, r.h⟩, by rw [hfin, ht'], hnc⟩

/-- C9 witness: the concrete tank with rect (0, 0, 36, 36) against the wall
(-4, -14, 9, 17) (depths 5/40/3/50) is moved down by 3 and separated. -/
theorem C9_witness :
    (handleWallCollisions tank9 [wall9]).position =
      ⟨tank9.position.x, tank9.position.y + 3⟩ ∧
    ∃ r', rectOf (handleWallCollisions tank9 [wall9]) = some r' ∧
      collideRect r' wall9 = false :=
  C9_min_axis_resolution tank9 wall9 ⟨0, 0, 36, 36⟩ (by decide) (by decide) (by decide)
    (by decide) (by decide) (by decide)

theorem mem_randomWalls (floats : ℕ → ℚ) (r : Rect) :
    r ∈ randomWalls floats ↔
    ∃ x y : ℕ, x < 20 ∧ 1 ≤ y ∧ y ≤ 13 ∧
      floats ((y - 1) * 20 + x) < 12 / 100 ∧ r = mkTile x y := by
  unfold randomWalls
  simp only [GRID_WIDTH, GRID_HEIGHT]
  constructor
  · intro hmem
    obtain ⟨l, hl, hrl⟩ := List.mem_flatten.mp hmem
    obtain ⟨y, hy, rfl⟩ := List.mem_map.mp hl
    obtain ⟨j, hj, rfl⟩ := List.mem_map.mp hy
    rw [List.mem_range] at hj
    obtain ⟨x, hx, hfx⟩ := List.mem_filterMap.mp hrl
    rw [List.mem_range] at hx
    by_cases hcond : floats ((j + 1 - 1) * 20 + x) < 12 / 100
    · rw [if_pos hcond] at hfx
      injection hfx with hfx
      exact ⟨x, j + 1, hx, by omega, by omega, by simpa using hcond, hfx.symm⟩
    · rw [if_neg hcond] at hfx
      exact absurd hfx (by simp)
  · rintro ⟨x, y, hx, hy1, hy2, hflt, rfl⟩
    rw [List.mem_flatten]
    refine ⟨(List.range 20).filterMap (fun x' =>
        if floats ((y - 1) * 20 + x') < 12 / 100 then some (mkTile x' y) else none), ?_, ?_⟩
    · rw [List.mem_map]
      refine ⟨y, ?_, rfl⟩
      rw [List.mem_map]
      exact ⟨y - 1, List.mem_range.mpr (by omega), by omega⟩
    · rw [List.mem_filterMap]
      exact ⟨x, List.mem_range.mpr hx, by rw [if_pos hflt]⟩

theorem mem_borderWalls (x y : ℕ) (hx : x < 20) (hy : y < 15)
    (hb : x = 0 ∨ x = 19 ∨ y = 0 ∨ y = 14) : mkTile x y ∈ borderWalls := by
  unfold borderWalls
  rw [List.mem_append]
  rcases hb with hb | hb | hb | hb
  · right
    rw [List.mem_flatten]
    refine ⟨[mkTile 0 y, mkTile (GRID_WIDTH - 1) y],
      List.mem_map.mpr ⟨y, List.mem_range.mpr (by simpa [GRID_HEIGHT] using hy), rfl⟩, ?_⟩
    subst hb
    exact List.mem_cons_self _ _
  · right
    rw [List.mem_flatten]
    refine ⟨[mkTile 0 y, mkTile (GRID_WIDTH - 1) y],
      List.mem_map.mpr ⟨y, List.mem_range.mpr (by simpa [GRID_HEIGHT] using hy), rfl⟩, ?_⟩
    subst hb
    exact List.mem_cons_of_mem _ (List.mem_cons_self _ _)
  · left
    rw [List.mem_flatten]
    refine ⟨[mkTile x 0, mkTile x (GRID_HEIGHT - 1)],
      List.mem_map.mpr ⟨x, List.mem_range.mpr (by simpa [GRID_WIDTH] using hx), rfl⟩, ?_⟩
    subst hb
    exact List.mem_cons_self _ _
  · left
    rw [List.mem_flatten]
    refine ⟨[mkTile x 0, mkTile x (GRID_HEIGHT - 1)],
      List.mem_map.mpr ⟨x, List.mem_range.mpr (by simpa [GRID_WIDTH] using hx), rfl⟩, ?_⟩
    subst hb
    exact List.mem_cons_of_mem _ (List.mem_cons_self _ _)

/-- C3 counterexample: the random pass is not restricted to interior columns.
With the stream whose 20th draw (and no other) is below 0.12, the code's
random pass places a wall on the border-column tile (0, 2), and its output
differs from the interior-only pass the specification describes. -/
theorem C3_counterexample :
    randomWalls floats3 ≠ randomWallsSpecInterior floats3 ∧
    mkTile 0 2 ∈ randomWalls floats3 := by
  constructor
  · decide
  · decide

/-- C3 (amended): the 0.12-probability draw is performed for every tile of
every interior row — all 20 columns, border columns included (one draw per
tile, consumed row by row) — and the full outer ring is then appended as wall
unconditionally, regardless of the draws. -/
theorem C3_random_pass (floats : ℕ → ℚ) :
    (∀ r : Rect, r ∈ randomWalls floats ↔
      ∃ x y : ℕ, x < 20 ∧ 1 ≤ y ∧ y ≤ 13 ∧
        floats ((y - 1) * 20 + x) < 12 / 100 ∧ r = mkTile x y) ∧
    (∀ x y : ℕ, x < 20 → y < 15 → (x = 0 ∨ x = 19 ∨ y = 0 ∨ y = 14) →
      mkTile x y ∈ randomWalls floats ++ borderWalls) :=
  ⟨fun r => mem_randomWalls floats r,
   fun x y hx hy hb => List.mem_append_right _ (mem_borderWalls x y hx hy hb)⟩

theorem is_safe_mkTile_border (x y : ℕ) (hb : x = 0 ∨ x = 19 ∨ y = 0 ∨ y = 14) :
    is_safe (mkTile x y) = false := by
  unfold is_safe mkTile
  dsimp only
  have h48 : (48 : ℤ) ≠ 0 := by norm_num
  rw [Int.mul_fdiv_cancel_left (x : ℤ) h48, Int.mul_fdiv_cancel_left (y : ℤ) h48]
  rw [if_pos]
  simp only [GRID_WIDTH, GRID_HEIGHT]
  rcases hb with hb | hb | hb | hb <;> subst hb <;> norm_num

theorem generate_map_border (floats : ℕ → ℚ) (x y : ℕ) (hx : x < 20) (hy : y < 15)
    (hb : x = 0 ∨ x = 19 ∨ y = 0 ∨ y = 14) : mkTile x y ∈ generate_map floats := by
  unfold generate_map
  rw [List.mem_filter]
  refine ⟨List.mem_append_right _ (mem_borderWalls x y hx hy hb), ?_⟩
  rw [is_safe_mkTile_border x y hb]
  rfl

theorem generate_map_safe_zone (floats : ℕ → ℚ) (x y : ℤ)
    (hx8 : 8 ≤ x) (hx12 : x ≤ 12) (hy11 : 11 ≤ y) (hy13 : y ≤ 13) :
    ∀ r ∈ generate_map floats, ¬(r.x = 48 * x ∧ r.y = 48 * y) := by
  intro r hr hcontra
  unfold generate_map at hr
  rw [List.mem_filter] at hr
  have hsafe : is_safe r = false := by simpa using hr.2
  obtain ⟨hrx, hry⟩ := hcontra
  unfold is_safe at hsafe
  dsimp only at hsafe
  rw [hrx, hry] at hsafe
  have h48 : (48 : ℤ) ≠ 0 := by norm_num
  rw [Int.mul_fdiv_cancel_left x h48, Int.mul_fdiv_cancel_left y h48] at hsafe
  rw [if_neg (by simp only [GRID_WIDTH, GRID_HEIGHT]; push_cast; omega)] at hsafe
  have hmem : (x, y) ∈ safeTiles := by
    interval_cases x <;> interval_cases y <;> decide
  simp [hmem] at hsafe

/-- C6: for every level number and any RNG behaviour, the constructed level's
outer ring of tiles is entirely wall, while every in-grid non-border tile
within Chebyshev radius 2 of the player's spawn tile (10, 13) holds no wall. -/
theorem C6_border_and_spawn_clearing (fam : ℕ → PyRNG) (n : ℕ) :
    (∀ x y : ℕ, x < 20 → y < 15 → (x = 0 ∨ x = 19 ∨ y = 0 ∨ y = 14) →
        mkTile x y ∈ (Level.make fam n).walls) ∧
    (∀ x y : ℤ, |x - playerSpawnTile.1| ≤ 2 → |y - playerSpawnTile.2| ≤ 2 →
        1 ≤ x → x ≤ 18 → 1 ≤ y → y ≤ 13 →
        ∀ r ∈ (Level.make fam n).walls, ¬(r.x = 48 * x ∧ r.y = 48 * y)) := by
  have hw : (Level.make fam n).walls = generate_map (fam n).floats := rfl
  constructor
  · intro x y hx hy hb
    rw [hw]
    exact generate_map_border _ x y hx hy hb
  · intro x y h1 h2 h3 h4 h5 h6 r hr
    rw [hw] at hr
    have hst : playerSpawnTile = (10, 13) := by decide
    rw [hst] at h1 h2
    have ha1 := abs_le.mp h1
    have ha2 := abs_le.mp h2
    exact generate_map_safe_zone _ x y (by simp at ha1 ⊢; omega) (by simp at ha1 ⊢; omega)
      (by simp at ha2 ⊢; omega) h6 r hr

/-- C6 witness: in the constant-stream level 1, the corner border tile is a
wall and the spawn-adjacent tile (10, 12) holds no wall. -/
theorem C6_witness :
    mkTile 0 0 ∈ (Level.make famConst 1).walls ∧
    (∀ r ∈ (Level.make famConst 1).walls, ¬(r.x = 48 * 10 ∧ r.y = 48 * 12)) :=
  ⟨(C6_border_and_spawn_clearing famConst 1).1 0 0 (by norm_num) (by norm_num) (Or.inl rfl),
   (C6_border_and_spawn_clearing famConst 1).2 10 12 (by decide) (by decide)
     (by norm_num) (by norm_num) (by norm_num) (by norm_num)⟩

/-- C3 witness: the amended characterisation applied at the concrete stream
`floats3` — the corner ring tile is a wall of the pre-carve list, and the
characterisation instantiates at the border-column tile (0, 2). -/
theorem C3_witness :
    mkTile 0 0 ∈ randomWalls floats3 ++ borderWalls ∧
    (mkTile 0 2 ∈ randomWalls floats3 ↔
      ∃ x y : ℕ, x < 20 ∧ 1 ≤ y ∧ y ≤ 13 ∧
        floats3 ((y - 1) * 20 + x) < 12 / 100 ∧ mkTile 0 2 = mkTile x y) :=
  ⟨(C3_random_pass floats3).2 0 0 (by norm_num) (by norm_num) (Or.inl rfl),
   (C3_random_pass floats3).1 (mkTile 0 2)⟩

/-- C10: a placement candidate is accepted exactly when its 48 x 48 rect
collides with no wall (every spawned enemy satisfies this, a collision-free
candidate is accepted on the spot, a colliding one merely consumes the
attempt), and candidates are never tested against already-placed enemies — in
the constant-stream level 1 both enemies are created at the identical
position (72, 72). -/
theorem C10_placement_ignores_enemies :
    (∀ (ints : ℕ → ℕ) (walls : List Rect) (n : ℕ), ∀ e ∈ spawnEnemies ints walls n,
        walls.any (fun wll => collideRect (candidateRect e.position) wll) = false) ∧
    (∀ (ints : ℕ → ℕ) (walls : List Rect) (att k : ℕ),
        walls.any (fun wll => collideRect (candidateRect
            (candidatePos (1 + ((ints k : ℤ)) % 18) (1 + ((ints (k + 1) : ℤ)) % 7))) wll)
          = false →
        tryPlace ints walls (att + 1) k =
          (some (candidatePos (1 + ((ints k : ℤ)) % 18) (1 + ((ints (k + 1) : ℤ)) % 7)),
           k + 2)) ∧
    (∀ (ints : ℕ → ℕ) (walls : List Rect) (att k : ℕ),
        walls.any (fun wll => collideRect (candidateRect
            (candidatePos (1 + ((ints k : ℤ)) % 18) (1 + ((ints (k + 1) : ℤ)) % 7))) wll)
          = true →
        tryPlace ints walls (att + 1) k = tryPlace ints walls att (k + 2)) ∧
    ((Level.make famConst 1).enemies.map (fun t => t.position) =
      [⟨72, 72⟩, ⟨72, 72⟩]) := by
  refine ⟨?_, ?_, ?_, by decide⟩
  · intro ints walls n e he
    exact (spawnLoop_mem he).2
  · intro ints walls att k h
    rw [tryPlace, if_neg (by rw [h]; exact Bool.false_ne_true)]
  · intro ints walls att k h
    rw [tryPlace, if_pos h]

/-- C10 witness: the acceptance characterisation applied at the constant-zero
stream: the first candidate of the empty-wall arena is accepted immediately,
and the first enemy of the constant-stream level 1 indeed overlaps no wall. -/
theorem C10_witness :
    tryPlace (fun _ => 0) [] 100 0 = (some (candidatePos 1 1), 2) ∧
    (Level.make famConst 1).walls.any (fun wll => collideRect
        (candidateRect (mkEnemy 1 ⟨72, 72⟩).position) wll) = false :=
  ⟨by
    have h := (C10_placement_ignores_enemies.2.1 (fun _ => 0) [] 99 0) (by decide)
    simpa using h,
   C10_placement_ignores_enemies.1 (fun _ => 0) (Level.make famConst 1).walls 1
     (mkEnemy 1 ⟨72, 72⟩) (by decide)⟩

theorem collideRect_iff (r w : Rect) : collideRect r w = true ↔
    r.x < w.right ∧ w.x < r.right ∧ r.y < w.bottom ∧ w.y < r.bottom := by
  simp [collideRect, Bool.and_eq_true, decide_eq_true_eq, and_assoc]

theorem collideRect_false_iff (r w : Rect) : collideRect r w = false ↔
    ¬(r.x < w.right ∧ w.x < r.right ∧ r.y < w.bottom ∧ w.y < r.bottom) := by
  rw [← collideRect_iff]
  exact Bool.eq_false_iff

theorem applyCorrection_separates (t : Tank) (r w : Rect)
    (hr0 : rectOf t = some r) (hc : collideRect r w = true)
    (hs : SafePos t) (hs' : SafePos (applyCorrection t r w)) :
    ∃ r', rectOf (applyCorrection t r w) = some r' ∧ collideRect r' w = false := by
  have hpens := (collideRect_iff r w).mp hc
  have hr := hr0
  unfold rectOf at hr
  by_cases hcond : t.sizeW = 0 ∨ t.sizeH = 0 ∨ t.alive = false
  · rw [if_pos hcond] at hr; exact absurd hr (by simp)
  rw [if_neg hcond] at hr
  injection hr with hr
  have hrx : r.x = pyInt (t.position.x - (t.sizeW : ℚ) / 2) := by rw [← hr]
  have hry : r.y = pyInt (t.position.y - (t.sizeH : ℚ) / 2) := by rw [← hr]
  have hrw : r.w = t.sizeW := by rw [← hr]
  have hrh : r.h = t.sizeH := by rw [← hr]
  unfold SafePos at hs hs'
  unfold applyCorrection at hs' ⊢
  dsimp only at hs' ⊢
  split_ifs at hs' ⊢ with h1 h2 h3
  · -- push right by dxLeft = w.right - r.x > 0
    refine ⟨⟨r.x + (w.right - r.x), r.y, r.w, r.h⟩, ?_, ?_⟩
    · unfold rectOf
      rw [if_neg hcond]
      dsimp only
      have harith : t.position.x + ((w.right - r.x : ℤ) : ℚ) - (t.sizeW : ℚ) / 2 =
          t.position.x - (t.sizeW : ℚ) / 2 + ((w.right - r.x : ℤ) : ℚ) := by ring
      rw [harith, pyInt_add_int _ hs.1 (by
        have : (0 : ℚ) ≤ ((w.right - r.x : ℤ) : ℚ) := by exact_mod_cast le_of_lt (by omega)
        linarith [hs.1]), ← hrx, ← hry, hrw, hrh]
    · rw [collideRect_false_iff]
      dsimp only
      omega
  · -- push left by dxRight = r.right - w.x > 0
    refine ⟨⟨r.x - (r.right - w.x), r.y, r.w, r.h⟩, ?_, ?_⟩
    · unfold rectOf
      rw [if_neg hcond]
      dsimp only
      have harith : t.position.x - ((r.right - w.x : ℤ) : ℚ) - (t.sizeW : ℚ) / 2 =
          t.position.x - (t.sizeW : ℚ) / 2 - ((r.right - w.x : ℤ) : ℚ) := by ring
      rw [show t.position.x - ((r.right - w.x : ℤ) : ℚ) - (t.sizeW : ℚ) / 2 =
          t.position.x - (t.sizeW : ℚ) / 2 - ((r.right - w.x : ℤ) : ℚ) from by ring] at hs' ⊢
      rw [pyInt_sub_int _ hs.1 (by simpa using hs'.1), ← hrx, ← hry, hrw, hrh]
    · rw [collideRect_false_iff]
      dsimp only
      simp only [Rect.right] at *
      omega
  · -- push down by dyTop = w.bottom - r.y > 0
    refine ⟨⟨r.x, r.y + (w.bottom - r.y), r.w, r.h⟩, ?_, ?_⟩
    · unfold rectOf
      rw [if_neg hcond]
      dsimp only
      have harith : t.position.y + ((w.bottom - r.y : ℤ) : ℚ) - (t.sizeH : ℚ) / 2 =
          t.position.y - (t.sizeH : ℚ) / 2 + ((w.bottom - r.y : ℤ) : ℚ) := by ring
      rw [harith, pyInt_add_int _ hs.2 (by
        have : (0 : ℚ) ≤ ((w.bottom - r.y : ℤ) : ℚ) := by exact_mod_cast le_of_lt (by omega)
        linarith [hs.2]), ← hrx, ← hry, hrw, hrh]
    · rw [collideRect_false_iff]
      dsimp only
      omega
  · -- push up by dyBottom = r.bottom - w.y > 0
    refine ⟨⟨r.x, r.y - (r.bottom - w.y), r.w, r.h⟩, ?_, ?_⟩
    · unfold rectOf
      rw [if_neg hcond]
      dsimp only
      rw [show t.position.y - ((r.bottom - w.y : ℤ) : ℚ) - (t.sizeH : ℚ) / 2 =
          t.position.y - (t.sizeH : ℚ) / 2 - ((r.bottom - w.y : ℤ) : ℚ) from by ring] at hs' ⊢
      rw [pyInt_sub_int _ hs.2 (by simpa using hs'.2), ← hrx, ← hry, hrw, hrh]
    · rw [collideRect_false_iff]
      dsimp only
      simp only [Rect.bottom] at *
      omega

theorem resolveLoop_separates_last : ∀ (walls : List Rect) (t : Tank) (r : Rect),
    rectOf t = some r →
    (∀ u ∈ t :: resolveStates t r walls, SafePos u) →
    ∃ r', rectOf (resolveLoop t r walls) = some r' ∧
      ∀ wl, walls.getLast? = some wl → collideRect r' wl = false := by
  intro walls
  induction walls with
  | nil =>
    intro t r hr hsafe
    exact ⟨r, hr, fun wl hwl => absurd hwl (by simp)⟩
  | cons w ws ih =>
    intro t r hr hsafe
    rw [resolveLoop]
    by_cases hc : collideRect r w
    · rw [if_pos hc]
      dsimp only
      have hsT : SafePos t := hsafe t (List.mem_cons_self _ _)
      have hsT' : SafePos (applyCorrection t r w) := by
        apply hsafe
        rw [resolveStates, if_pos hc]
        dsimp only
        cases rectOf (applyCorrection t r w) with
        | none => exact List.mem_cons_of_mem _ (List.mem_cons_self _ _)
        | some r2 => exact List.mem_cons_of_mem _ (List.mem_cons_self _ _)
      obtain ⟨r'', hr'', hnc⟩ := applyCorrection_separates t r w hr hc hsT hsT'
      rw [hr'']
      cases ws with
      | nil =>
        refine ⟨r'', hr'', ?_⟩
        intro wl hwl
        simp only [List.getLast?_singleton, Option.some.injEq] at hwl
        rw [← hwl]
        exact hnc
      | cons w2 ws2 =>
        have hsTail : ∀ u ∈ (applyCorrection t r w) ::
            resolveStates (applyCorrection t r w) r'' (w2 :: ws2), SafePos u := by
          intro u hu
          rcases List.mem_cons.mp hu with hu | hu
          · rw [hu]; exact hsT'
          · apply hsafe
            rw [resolveStates, if_pos hc]
            dsimp only
            rw [hr'']
            exact List.mem_cons_of_mem _ (List.mem_cons_of_mem _ hu)
        obtain ⟨rf, hrf, hlast⟩ := ih (applyCorrection t r w) r'' hr'' hsTail
        refine ⟨rf, hrf, ?_⟩
        intro wl hwl
        rw [List.getLast?_cons_cons] at hwl
        exact hlast wl hwl
    · rw [if_neg hc]
      cases ws with
      | nil =>
        refine ⟨r, hr, ?_⟩
        intro wl hwl
        simp only [List.getLast?_singleton, Option.some.injEq] at hwl
        rw [← hwl]
        exact Bool.not_eq_true _ ▸ Bool.eq_false_iff.mpr hc
      | cons w2 ws2 =>
        have hsTail : ∀ u ∈ t :: resolveStates t r (w2 :: ws2), SafePos u := by
          intro u hu
          rcases List.mem_cons.mp hu with hu | hu
          · rw [hu]; exact hsafe t (List.mem_cons_self _ _)
          · apply hsafe
            rw [resolveStates, if_neg hc]
            exact List.mem_cons_of_mem _ hu
        obtain ⟨rf, hrf, hlast⟩ := ih t r hr hsTail
        refine ⟨rf, hrf, ?_⟩
        intro wl hwl
        rw [List.getLast?_cons_cons] at hwl
        exact hlast wl hwl

/-- C4 counterexample: the wall pass is a single pass, so a correction can
push the vehicle back into an already-visited wall that is never re-tested.
With walls [A, B] stacked vertically and the tank overlapping only B, the
pass pushes the tank up into A and returns with a valid rect still
overlapping wall A of the level. -/
theorem C4_counterexample :
    rectOf (handleWallCollisions tank4 [wall4A, wall4B]) = some ⟨6, 12, 36, 36⟩ ∧
    wall4A ∈ [wall4A, wall4B] ∧
    collideRect ⟨6, 12, 36, 36⟩ wall4A = true := by
  refine ⟨by decide, by decide, by decide⟩

/-- C4 (amended): `_handle_wall_collisions` makes a single in-order pass:
each correction separates the vehicle from the wall that triggered it and the
recomputed rect is tested only against the walls remaining later in the list,
so on return the rect (valid whenever it was valid at entry) does not overlap
the last wall of the list — but overlap with earlier walls can be reintroduced
and is not re-checked.  (The side conditions keep both rect corners at
nonnegative coordinates throughout, where the `int()` truncation of the rect
moves exactly with the position.) -/
theorem C4_single_pass (t : Tank) (r : Rect) (walls : List Rect)
    (hr : rectOf t = some r)
    (hsafe : ∀ u ∈ t :: resolveStates t r walls, SafePos u) :
    (∀ (u : Tank) (ru wu : Rect), rectOf u = some ru → collideRect ru wu = true →
        SafePos u → SafePos (applyCorrection u ru wu) →
        ∃ r₁, rectOf (applyCorrection u ru wu) = some r₁ ∧ collideRect r₁ wu = false) ∧
    ∃ r', rectOf (handleWallCollisions t walls) = some r' ∧
      ∀ wl, walls.getLast? = some wl → collideRect r' wl = false := by
  constructor
  · intro u ru wu h1 h2 h3 h4
    exact applyCorrection_separates u ru wu h1 h2 h3 h4
  · unfold handleWallCollisions
    rw [hr]
    exact resolveLoop_separates_last walls t r hr hsafe

/-- C4 witness: the single-pass theorem applied at the concrete C4 scenario —
the final rect is valid and clear of the last wall B (while, per the
counterexample, it overlaps the earlier wall A). -/
theorem C4_witness :
    ∃ r', rectOf (handleWallCollisions tank4 [wall4A, wall4B]) = some r' ∧
      ∀ wl, [wall4A, wall4B].getLast? = some wl → collideRect r' wl = false :=
  (C4_single_pass tank4 ⟨6, 49, 36, 36⟩ [wall4A, wall4B] (by decide)
    (by decide)).2

/-- The relation: a tank can only be alive after the collision pass if it was
alive before (the pass never revives). -/
def aliveImp (a b : Tank) : Prop := b.alive = true → a.alive = true

theorem forall2_aliveImp_refl (l : List Tank) : List.Forall₂ aliveImp l l :=
  List.forall₂_same.mpr (fun _ _ h => h)

theorem forall2_aliveImp_trans {l1 l2 l3 : List Tank}
    (h12 : List.Forall₂ aliveImp l1 l2) (h23 : List.Forall₂ aliveImp l2 l3) :
    List.Forall₂ aliveImp l1 l3 := by
  induction h12 generalizing l3 with
  | nil => cases h23; exact List.Forall₂.nil
  | cons hab _ ih =>
    cases h23 with
    | cons hbc h' => exact List.Forall₂.cons (fun hx => hab (hbc hx)) (ih h')

theorem listModify_map {α β : Type} (proj : α → β) (f : α → α)
    (hf : ∀ a, proj (f a) = proj a) :
    ∀ (l : List α) (i : ℕ), (listModify l i f).map proj = l.map proj := by
  intro l
  induction l with
  | nil => intro i; rfl
  | cons a l ih =>
    intro i
    cases i with
    | zero => simp [listModify, hf]
    | succ i' => simp [listModify, ih i']

theorem listModify_forall2 {α : Type} (R : α → α → Prop) (hR : ∀ a, R a a)
    (f : α → α) (hf : ∀ a, R a (f a)) :
    ∀ (l : List α) (i : ℕ), List.Forall₂ R l (listModify l i f) := by
  intro l
  induction l with
  | nil => intro i; exact List.Forall₂.nil
  | cons a l ih =>
    intro i
    cases i with
    | zero => exact List.Forall₂.cons (hf a) (List.forall₂_same.mpr (fun x _ => hR x))
    | succ i' => exact List.Forall₂.cons (hR a) (ih i')

theorem shellHitStep_map (ts : List Tank) (i j : ℕ) :
    (shellHitStep ts i j).map tankCore = ts.map tankCore := by
  unfold shellHitStep
  cases h1 : ts[i]? with
  | none => rfl
  | some t =>
    dsimp only
    cases h2 : t.shells[j]? with
    | none => rfl
    | some s =>
      dsimp only
      by_cases hs : s.alive
      · rw [if_neg (by simp [hs])]
        cases h3 : findTarget ts s with
        | none => rfl
        | some k =>
          dsimp only
          rw [listModify_map tankCore
                (fun tw => { tw with alive := false }) (fun tw => rfl),
              listModify_map tankCore
                (fun tw => { tw with shells :=
                  (listModify tw.shells j (fun sh => { sh with alive := false })) })
                (fun tw => by
                  unfold tankCore
                  simp [listModify_map shellCore
                    (fun sh => { sh with alive := false }) (fun sh => rfl)])]
      · rw [if_pos (by simp [hs])]

theorem shellHitStep_forall2 (ts : List Tank) (i j : ℕ) :
    List.Forall₂ aliveImp ts (shellHitStep ts i j) := by
  unfold shellHitStep
  cases h1 : ts[i]? with
  | none => exact forall2_aliveImp_refl ts
  | some t =>
    dsimp only
    cases h2 : t.shells[j]? with
    | none => exact forall2_aliveImp_refl ts
    | some s =>
      dsimp only
      by_cases hs : s.alive
      · rw [if_neg (by simp [hs])]
        cases h3 : findTarget ts s with
        | none => exact forall2_aliveImp_refl ts
        | some k =>
          dsimp only
          refine forall2_aliveImp_trans
            (listModify_forall2 aliveImp (fun a h => h)
              (fun tw => { tw with shells :=
                (listModify tw.shells j (fun sh => { sh with alive := false })) })
              (fun a h => h) ts i) ?_
          exact listModify_forall2 aliveImp (fun a h => h)
            (fun tw => { tw with alive := false })
            (fun a h => absurd h (by simp)) _ k
      · rw [if_pos (by simp [hs])]
        exact forall2_aliveImp_refl ts

theorem foldlInvariant {α β : Type} (P : α → Prop) (f : α → β → α) :
    ∀ (l : List β) (init : α), P init → (∀ a b, P a → P (f a b)) → P (l.foldl f init) := by
  intro l
  induction l with
  | nil => intro init h0 _; exact h0
  | cons b l ih => intro init h0 hstep; exact ih _ (hstep _ _ h0) hstep

theorem handleShellCollisions_map (ts : List Tank) :
    (handleShellCollisions ts).map tankCore = ts.map tankCore := by
  unfold handleShellCollisions
  have hstep : ∀ (a : List Tank) (i : ℕ), a.map tankCore = ts.map tankCore →
      (match a[i]? with
        | none => a
        | some t => List.foldl (fun acc2 j => shellHitStep acc2 i j) a
            (List.range t.shells.length)).map tankCore = ts.map tankCore := by
    intro a i ha
    cases h : a[i]? with
    | none => simpa using ha
    | some t =>
      dsimp only
      exact foldlInvariant (fun acc => acc.map tankCore = ts.map tankCore)
        (fun acc2 j => shellHitStep acc2 i j) (List.range t.shells.length) a ha
        (fun a2 j ha2 => by
          show (shellHitStep a2 i j).map tankCore = ts.map tankCore
          rw [shellHitStep_map]
          exact ha2)
  exact foldlInvariant (fun acc => acc.map tankCore = ts.map tankCore)
    (fun acc i => match acc[i]? with
      | none => acc
      | some t => List.foldl (fun acc2 j => shellHitStep acc2 i j) acc
          (List.range t.shells.length))
    (List.range ts.length) ts rfl hstep

theorem handleShellCollisions_forall2 (ts : List Tank) :
    List.Forall₂ aliveImp ts (handleShellCollisions ts) := by
  unfold handleShellCollisions
  have hstep : ∀ (a : List Tank) (i : ℕ), List.Forall₂ aliveImp ts a →
      List.Forall₂ aliveImp ts
        (match a[i]? with
          | none => a
          | some t => List.foldl (fun acc2 j => shellHitStep acc2 i j) a
              (List.range t.shells.length)) := by
    intro a i ha
    cases h : a[i]? with
    | none => simpa using ha
    | some t =>
      dsimp only
      exact foldlInvariant (fun acc => List.Forall₂ aliveImp ts acc)
        (fun acc2 j => shellHitStep acc2 i j) (List.range t.shells.length) a ha
        (fun a2 j ha2 => forall2_aliveImp_trans ha2 (shellHitStep_forall2 a2 i j))
  exact foldlInvariant (fun acc => List.Forall₂ aliveImp ts acc)
    (fun acc i => match acc[i]? with
      | none => acc
      | some t => List.foldl (fun acc2 j => shellHitStep acc2 i j) acc
          (List.range t.shells.length))
    (List.range ts.length) ts (forall2_aliveImp_refl ts) hstep

theorem tankUpdate_dead (T : Trig) (keys : Keys) (dt : ℚ) (walls : List Rect)
    (player t : Tank) (h : t.alive = false) :
    Tank.update T keys dt walls player t =
      { t with shells := (t.shells.map (Shell.update dt walls)).filter (·.alive) } := by
  unfold Tank.update
  rw [if_neg (by simp [h])]

theorem rectOf_dead (t : Tank) (h : t.alive = false) : rectOf t = none := by
  unfold rectOf
  rw [if_pos (Or.inr (Or.inr h))]

theorem levelUpdate_parts (T : Trig) (keys : Keys) (dt : ℚ) (L : Level) :
    ∃ p2 es2,
      handleShellCollisions
        (Tank.update T keys dt L.walls L.player L.player ::
          L.enemies.map (Tank.update T keys dt L.walls
            (Tank.update T keys dt L.walls L.player L.player))) = p2 :: es2 ∧
      (Level.update T keys dt L).1 =
        { L with player := p2, enemies := es2.filter (·.alive),
                 player_destroyed := !p2.alive } := by
  cases hps : handleShellCollisions
      (Tank.update T keys dt L.walls L.player L.player ::
        L.enemies.map (Tank.update T keys dt L.walls
          (Tank.update T keys dt L.walls L.player L.player))) with
  | nil =>
    exfalso
    have := handleShellCollisions_map
      (Tank.update T keys dt L.walls L.player L.player ::
        L.enemies.map (Tank.update T keys dt L.walls
          (Tank.update T keys dt L.walls L.player L.player)))
    rw [hps] at this
    simp at this
  | cons p2 es2 =>
    refine ⟨p2, es2, rfl, ?_⟩
    unfold Level.update
    dsimp only
    rw [hps]

theorem levelUpdate_dead_player (T : Trig) (keys : Keys) (dt : ℚ) (L : Level)
    (h : L.player.alive = false) :
    (Level.update T keys dt L).1.player.alive = false ∧
    (Level.update T keys dt L).1.player.position = L.player.position ∧
    (Level.update T keys dt L).1.player.shells.map shellCore =
      ((L.player.shells.map (Shell.update dt L.walls)).filter (·.alive)).map shellCore := by
  obtain ⟨p2, es2, hps, hL⟩ := levelUpdate_parts T keys dt L
  have hp1 : Tank.update T keys dt L.walls L.player L.player =
      { L.player with
        shells := (L.player.shells.map (Shell.update dt L.walls)).filter (·.alive) } :=
    tankUpdate_dead T keys dt L.walls L.player L.player h
  have hcore := handleShellCollisions_map
    (Tank.update T keys dt L.walls L.player L.player ::
      L.enemies.map (Tank.update T keys dt L.walls
        (Tank.update T keys dt L.walls L.player L.player)))
  rw [hps] at hcore
  simp only [List.map_cons, List.cons.injEq] at hcore
  obtain ⟨hc1, _⟩ := hcore
  have hal := handleShellCollisions_forall2
    (Tank.update T keys dt L.walls L.player L.player ::
      L.enemies.map (Tank.update T keys dt L.walls
        (Tank.update T keys dt L.walls L.player L.player)))
  rw [hps] at hal
  have halive : aliveImp (Tank.update T keys dt L.walls L.player L.player) p2 := by
    cases hal with
    | cons hab _ => exact hab
  have hp2alive : p2.alive = false := by
    cases hb : p2.alive
    · rfl
    · have h2 : L.player.alive = true := by
        have h3 := halive hb
        rw [hp1] at h3
        exact h3
      rw [h] at h2
      cases h2
  rw [hp1] at hc1
  unfold tankCore at hc1
  simp only [Prod.mk.injEq] at hc1
  obtain ⟨_, hpos, _, _, hshell⟩ := hc1
  rw [hL]
  exact ⟨hp2alive, hpos, hshell⟩

/-- C1 counterexample: in the concrete frame (dt = 0.1, trig model exact at
every input consumed), the only enemy (identity 1, alive, owning the alive
in-flight shell at (500, 500) that neither hits a wall nor leaves the bounds
this frame) holds still — its pursuit update leaves position (300, 300) and
heading -90 unchanged, as in the real code — and is struck by the player's
shell arriving at (290, 300); after the update the enemy set is empty and no
shell owned by vehicle 1 exists anywhere in the level, so the struck enemy's
surviving shell is not updated or collision-resolved in any subsequent
frame. -/
theorem C1_counterexample :
    (levelX.enemies.map (fun t => (t.tid, t.alive)) = [(1, true)]) ∧
    ((levelX.enemies.map (·.shells)).flatten.map (fun s => (s.owner, s.alive)) =
      [(1, true)]) ∧
    (Shell.update (1 / 10) levelX.walls shellE).alive = true ∧
    ((Tank.update trigC1 keys0 (1 / 10) levelX.walls playerX enemyX).position =
      ⟨300, 300⟩) ∧
    ((Tank.update trigC1 keys0 (1 / 10) levelX.walls playerX enemyX).angle = -90) ∧
    ((Level.update trigC1 keys0 (1 / 10) levelX).1.player.shells.map
        (fun s => (s.position, s.alive)) = [((⟨290, 300⟩ : Vec2), false)]) ∧
    ((Level.update trigC1 keys0 (1 / 10) levelX).1.enemies = []) ∧
    ((allShells (Level.update trigC1 keys0 (1 / 10) levelX).1).filter
        (fun s => decide (s.owner = 1)) = []) := by
  refine ⟨by decide, by decide, by decide, by decide, by decide, by decide, by decide,
    by decide⟩

/-- C1 (amended): a dead vehicle is excluded from movement, AI and wall
collision (its `Tank.update` only advances and prunes its shells) and from
shell collision (its rect is None); a struck enemy is additionally removed
from the level's enemy set at the end of the frame — every surviving enemy is
alive and no new identities appear — so its remaining shells are discarded
with it; the struck player, by contrast, stays in the level with its position
frozen and alive flag false through every subsequent frame, while its
already-fired shells continue to be advanced, pruned and collision-resolved
(their motion data evolves exactly by the shell pass). -/
theorem C1_dead_vehicle_shells (T : Trig) :
    (∀ (keys : Keys) (dt : ℚ) (walls : List Rect) (player t : Tank), t.alive = false →
        Tank.update T keys dt walls player t =
          { t with shells := (t.shells.map (Shell.update dt walls)).filter (·.alive) } ∧
        rectOf t = none) ∧
    (∀ (keys : Keys) (dt : ℚ) (L : Level), ∀ e ∈ (Level.update T keys dt L).1.enemies,
        e.alive = true) ∧
    (∀ (keys : Keys) (dt : ℚ) (L : Level),
        (Level.update T keys dt L).1.enemies.map (·.tid) ⊆ L.enemies.map (·.tid)) ∧
    (∀ (keys : Keys) (dt : ℚ) (L : Level), L.player.alive = false →
        (Level.update T keys dt L).1.player.alive = false ∧
        (Level.update T keys dt L).1.player.position = L.player.position ∧
        (Level.update T keys dt L).1.player.shells.map shellCore =
          ((L.player.shells.map (Shell.update dt L.walls)).filter (·.alive)).map
            shellCore) ∧
    (∀ (L : Level) (fs : List (Keys × ℚ)), L.player.alive = false →
        (runFrames T L fs).player.alive = false ∧
        (runFrames T L fs).player.position = L.player.position) := by
  refine ⟨?_, ?_, ?_, ?_, ?_⟩
  · intro keys dt walls player t h
    exact ⟨tankUpdate_dead T keys dt walls player t h, rectOf_dead t h⟩
  · intro keys dt L e he
    obtain ⟨p2, es2, hps, hL⟩ := levelUpdate_parts T keys dt L
    rw [hL] at he
    exact (List.mem_filter.mp he).2
  · intro keys dt L
    obtain ⟨p2, es2, hps, hL⟩ := levelUpdate_parts T keys dt L
    rw [hL]
    have hcore := handleShellCollisions_map
      (Tank.update T keys dt L.walls L.player L.player ::
        L.enemies.map (Tank.update T keys dt L.walls
          (Tank.update T keys dt L.walls L.player L.player)))
    rw [hps] at hcore
    simp only [List.map_cons, List.cons.injEq] at hcore
    obtain ⟨_, hc2⟩ := hcore
    have h1 : es2.map (·.tid) =
        (L.enemies.map (Tank.update T keys dt L.walls
          (Tank.update T keys dt L.walls L.player L.player))).map (·.tid) := by
      have := congrArg (List.map (fun c : ℕ × Vec2 × ℚ × ℚ ×
        List (Vec2 × Vec2 × ℕ × ℚ) => c.1)) hc2
      simpa [List.map_map, Function.comp, tankCore] using this
    have h2 : (L.enemies.map (Tank.update T keys dt L.walls
        (Tank.update T keys dt L.walls L.player L.player))).map (·.tid) =
        L.enemies.map (·.tid) := by
      rw [List.map_map]
      apply List.map_congr_left
      intro e _
      exact (tankUpdate_pres T keys dt L.walls
        (Tank.update T keys dt L.walls L.player L.player) e).1
    intro x hx
    have hx1 : x ∈ es2.map (·.tid) :=
      List.map_subset _ (List.filter_subset' es2) hx
    rw [h1, h2] at hx1
    exact hx1
  · intro keys dt L h
    exact levelUpdate_dead_player T keys dt L h
  · intro L fs
    induction fs generalizing L with
    | nil => intro h; exact ⟨h, rfl⟩
    | cons f fs ih =>
      intro h
      have h1 := levelUpdate_dead_player T f.1 f.2 L h
      have h2 := ih ((Level.update T f.1 f.2 L).1) h1.1
      refine ⟨?_, ?_⟩
      · simpa [runFrames] using h2.1
      · have : (runFrames T ((Level.update T f.1 f.2 L).1) fs).player.position =
            L.player.position := h2.2.trans h1.2.1
        simpa [runFrames] using this

/-- C1 witness: the amended theorem at the concrete dead-player level — the
dead player stays dead with its position frozen while its shell advances from
(250, 100) by its velocity, and its dead `Tank.update` is exactly the shell
pass. -/
theorem C1_witness :
    ((Level.update trigC1 keys0 (1 / 10) levelDeadX).1.player.alive = false ∧
     (Level.update trigC1 keys0 (1 / 10) levelDeadX).1.player.position =
       levelDeadX.player.position ∧
     (Level.update trigC1 keys0 (1 / 10) levelDeadX).1.player.shells.map shellCore =
       ((levelDeadX.player.shells.map
          (Shell.update (1 / 10) levelDeadX.walls)).filter (·.alive)).map shellCore) ∧
    (runFrames trigC1 levelDeadX [(keys0, 1 / 10), (keys0, 1 / 10)]).player.alive =
      false :=
  ⟨(C1_dead_vehicle_shells trigC1).2.2.2.1 keys0 (1 / 10) levelDeadX rfl,
   ((C1_dead_vehicle_shells trigC1).2.2.2.2 levelDeadX
     [(keys0, 1 / 10), (keys0, 1 / 10)] rfl).1⟩

end TankGame
